import Mathlib

set_option maxHeartbeats 1000000
set_option maxRecDepth 4000

/-!
Shallow embedding of the x402-stacks bonding-curve core:
the `agent-launchpad` Clarity contract (curve store, AMM pricing engine,
balance ledger, fee/graduation module), the `x402-curve-router` contract
(nonce-indexed receipts, payment stats), and the slice of `agent-registry`
consulted by `launch`.

Clarity `uint` is modeled as `Nat`; `(- a b)` and `(/ a b)` abort the whole
call on underflow / division by zero, which we model with an explicit error
outcome distinct from the discriminated `(err uN)` values.  Maps are
association lists; a public call either returns `.ok` together with the
post-state or an error, in which case the host commits nothing (Clarity
rolls back every aborted call).
-/

namespace X402

/-- Outcome of a Clarity call that does not complete normally: a
discriminated `(err uN)` result value, or a runtime abort raised by
unsigned underflow or division by zero. -/
inductive CErr where
  | code (n : Nat)
  | underflow
  | divZero
deriving DecidableEq, Repr

/-- Principals: external users (indexed by a natural number) and the
`agent-launchpad` contract principal, which holds STX custody. -/
inductive Principal where
  | user (n : Nat)
  | launchpadContract
deriving DecidableEq, Repr

/-- One settlement-rail transfer `stx-transfer? amount from to`. -/
structure StxTransfer where
  src : Principal
  dst : Principal
  amount : Nat
deriving DecidableEq, Repr

/-- `agents` record of `agent-registry`. -/
structure Agent where
  name : String
  descriptionUrl : String
  status : Nat
  registeredAt : Nat
  totalTasks : Nat
  totalEarned : Nat
  pricePerTask : Nat
  acceptsStx : Bool
  acceptsSip010 : Bool
deriving DecidableEq, Repr

/-- `curves` record of `agent-launchpad`. -/
structure Curve where
  creator : Principal
  name : String
  symbol : String
  totalSupply : Nat
  virtualStx : Nat
  k : Nat
  stxReserve : Nat
  tokensSold : Nat
  graduationStx : Nat
  feeBps : Nat
  accruedFees : Nat
  graduated : Bool
  createdAt : Nat
  creatorShareBps : Nat
deriving DecidableEq, Repr

/-- `receipts` record of `x402-curve-router`; the 16-byte nonce key is
modeled as a `Nat`. -/
structure Receipt where
  payer : Principal
  curveId : Nat
  stxAmount : Nat
  tokensReceived : Nat
  fee : Nat
  block : Nat
deriving DecidableEq, Repr

/-- Clarity `map-get?` over an association list. -/
def mapGet [DecidableEq α] : List (α × β) → α → Option β
  | [], _ => none
  | (k', v) :: rest, k => if k = k' then some v else mapGet rest k

/-- Clarity `map-set` over an association list: replaces the first binding
of the key or appends a fresh one. -/
def mapSet [DecidableEq α] : List (α × β) → α → β → List (α × β)
  | [], k, v => [(k, v)]
  | (k', v') :: rest, k, v =>
      if k = k' then (k, v) :: rest else (k', v') :: mapSet rest k v

/-- Combined state of the three contracts plus the host block height and a
log (newest first) of settlement-rail STX transfers. -/
structure World where
  -- agent-registry
  agents : List (Principal × Agent)
  totalAgents : Nat
  -- agent-launchpad
  totalCurves : Nat
  lpAdmin : Principal
  protocolFeeRecipient : Principal
  defaultTotalSupply : Nat
  defaultVirtualStx : Nat
  defaultGraduationStx : Nat
  defaultFeeBps : Nat
  defaultCreatorShareBps : Nat
  curves : List (Nat × Curve)
  balances : List ((Nat × Principal) × Nat)
  agentCurve : List (Principal × Nat)
  -- x402-curve-router
  totalPayments : Nat
  totalVolumeStx : Nat
  receipts : List (Nat × Receipt)
  -- host
  blockHeight : Nat
  stxLog : List StxTransfer
deriving DecidableEq, Repr

-- Constants of the contracts.
def bpsDenom : Nat := 10000
def priceScale : Nat := 1000000000000
def maxFeeBps : Nat := 500
def maxCreatorShareBps : Nat := 10000
def maxNameLen : Nat := 64
def statusActive : Nat := 1

-- agent-registry error codes.
def errAlreadyRegistered : CErr := .code 1000
def errNameTooLong : CErr := .code 1003
-- agent-launchpad error codes.
def errNotRegistered : CErr := .code 1400
def errAlreadyLaunched : CErr := .code 1401
def errCurveNotFound : CErr := .code 1402
def errGraduated : CErr := .code 1403
def errZeroAmount : CErr := .code 1404
def errInsufficientBalance : CErr := .code 1405
def errSlippage : CErr := .code 1406
def errNotAdmin : CErr := .code 1407
def errOverflow : CErr := .code 1408
def errSelfTransfer : CErr := .code 1409
def errInvalidParams : CErr := .code 1411
def errNotGraduated : CErr := .code 1412
def errSoldOut : CErr := .code 1413
def errInvalidFee : CErr := .code 1414
-- x402-curve-router error codes.
def errNonceUsed : CErr := .code 1500
def errZeroAmountRouter : CErr := .code 1501

/-- State right after both contracts are deployed by `deployer`: the admin
variables and the protocol fee recipient are the deployer, the launchpad
defaults are the literals of the source, every map is empty. -/
def initWorld (deployer : Principal) : World where
  agents := []
  totalAgents := 0
  totalCurves := 0
  lpAdmin := deployer
  protocolFeeRecipient := deployer
  defaultTotalSupply := 1000000000000000
  defaultVirtualStx := 10000000000
  defaultGraduationStx := 16667000000
  defaultFeeBps := 100
  defaultCreatorShareBps := 8000
  curves := []
  balances := []
  agentCurve := []
  totalPayments := 0
  totalVolumeStx := 0
  receipts := []
  blockHeight := 0
  stxLog := []

/-- `agent-registry` `is-registered`. -/
def isRegistered (w : World) (p : Principal) : Bool :=
  (mapGet w.agents p).isSome

/-- `agent-registry` `register-agent`. -/
def registerAgent (w : World) (sender : Principal) (name descriptionUrl : String)
    (pricePerTask : Nat) (acceptsStx acceptsSip010 : Bool) :
    Except CErr (Principal × World) :=
  if (mapGet w.agents sender).isSome then .error errAlreadyRegistered
  else if name.length ≤ maxNameLen then
    let agent : Agent :=
      { name := name, descriptionUrl := descriptionUrl, status := statusActive,
        registeredAt := w.blockHeight, totalTasks := 0, totalEarned := 0,
        pricePerTask := pricePerTask, acceptsStx := acceptsStx,
        acceptsSip010 := acceptsSip010 }
    .ok (sender, { w with agents := mapSet w.agents sender agent,
                          totalAgents := w.totalAgents + 1 })
  else .error errNameTooLong

/-- The curve record created by `launch`: a snapshot of the current
protocol defaults with empty reserve and supply-sold. -/
def launchCurve (w : World) (sender : Principal) (name symbol : String) : Curve :=
  { creator := sender, name := name, symbol := symbol,
    totalSupply := w.defaultTotalSupply, virtualStx := w.defaultVirtualStx,
    k := w.defaultVirtualStx * w.defaultTotalSupply, stxReserve := 0,
    tokensSold := 0, graduationStx := w.defaultGraduationStx,
    feeBps := w.defaultFeeBps, accruedFees := 0, graduated := false,
    createdAt := w.blockHeight, creatorShareBps := w.defaultCreatorShareBps }

/-- The state written by a successful `launch`. -/
def launchCore (w : World) (sender : Principal) (name symbol : String) : World :=
  { w with curves := mapSet w.curves w.totalCurves (launchCurve w sender name symbol),
           agentCurve := mapSet w.agentCurve sender w.totalCurves,
           totalCurves := w.totalCurves + 1 }

/-- `agent-launchpad` `launch`. -/
def launch (w : World) (sender : Principal) (name symbol : String) :
    Except CErr (Nat × World) :=
  if isRegistered w sender then
    if (mapGet w.agentCurve sender).isSome then .error errAlreadyLaunched
    else if 0 < name.length then
      if 0 < symbol.length then
        if 0 < w.defaultTotalSupply then
          if 0 < w.defaultVirtualStx then
            .ok (w.totalCurves, launchCore w sender name symbol)
          else .error errInvalidParams
        else .error errInvalidParams
      else .error errInvalidParams
    else .error errInvalidParams
  else .error errNotRegistered

/-! The let-bound quote arithmetic of `buy`, `sell`, `get-buy-quote` and
`get-sell-quote`, one definition per let binding of the source.  Underflow
and division-by-zero guards appear at the use sites inside the operations,
in the evaluation order of the source. -/

/-- `(/ (* stx-amount (get fee-bps curve)) BPS-DENOM)` — also the sell-side
fee formula applied to the gross proceeds. -/
def tradeFee (curve : Curve) (amount : Nat) : Nat :=
  amount * curve.feeBps / bpsDenom

/-- `(- stx-amount fee)`. -/
def netStx (curve : Curve) (stxAmount : Nat) : Nat :=
  stxAmount - tradeFee curve stxAmount

/-- `(- (get total-supply curve) (get tokens-sold curve))`. -/
def tokenReserve (curve : Curve) : Nat :=
  curve.totalSupply - curve.tokensSold

/-- `(+ (get stx-reserve curve) net-stx)`. -/
def newStxReserveBuy (curve : Curve) (stxAmount : Nat) : Nat :=
  curve.stxReserve + netStx curve stxAmount

/-- `(/ (get k curve) (+ (get virtual-stx curve) new-stx-reserve))`. -/
def newTokenReserveBuy (curve : Curve) (stxAmount : Nat) : Nat :=
  curve.k / (curve.virtualStx + newStxReserveBuy curve stxAmount)

/-- `(- token-reserve new-token-reserve)`. -/
def tokensOutBuy (curve : Curve) (stxAmount : Nat) : Nat :=
  tokenReserve curve - newTokenReserveBuy curve stxAmount

/-- `(+ token-reserve token-amount)`. -/
def newTokenReserveSell (curve : Curve) (tokenAmount : Nat) : Nat :=
  tokenReserve curve + tokenAmount

/-- `(- (/ (get k curve) new-token-reserve) (get virtual-stx curve))`. -/
def newStxReserveSell (curve : Curve) (tokenAmount : Nat) : Nat :=
  curve.k / newTokenReserveSell curve tokenAmount - curve.virtualStx

/-- `(- (get stx-reserve curve) new-stx-reserve)`. -/
def grossStxSell (curve : Curve) (tokenAmount : Nat) : Nat :=
  curve.stxReserve - newStxReserveSell curve tokenAmount

/-- `(- gross-stx fee)`. -/
def stxOutSell (curve : Curve) (tokenAmount : Nat) : Nat :=
  grossStxSell curve tokenAmount - tradeFee curve (grossStxSell curve tokenAmount)

/-- `(/ (* fees (get creator-share-bps curve)) BPS-DENOM)`. -/
def creatorShareOf (curve : Curve) : Nat :=
  curve.accruedFees * curve.creatorShareBps / bpsDenom

/-- `(- fees creator-share)`. -/
def protocolShareOf (curve : Curve) : Nat :=
  curve.accruedFees - creatorShareOf curve

/-- The state produced by a successful `graduate-internal` on `curve`:
the two fee payouts (each skipped when zero, as in the source) and the
terminal curve update. -/
def graduateCore (w : World) (curveId : Nat) (curve : Curve) : World :=
  let payout1 : List StxTransfer :=
    if 0 < creatorShareOf curve then
      [⟨Principal.launchpadContract, curve.creator, creatorShareOf curve⟩]
    else []
  let payout2 : List StxTransfer :=
    if 0 < protocolShareOf curve then
      [⟨Principal.launchpadContract, w.protocolFeeRecipient, protocolShareOf curve⟩]
    else []
  let curve' := { curve with graduated := true, accruedFees := 0 }
  { w with stxLog := payout2 ++ payout1 ++ w.stxLog,
           curves := mapSet w.curves curveId curve' }

/-- `agent-launchpad` `graduate-internal`: requires the reserve threshold
and not-graduated, splits the accrued fee pool `creatorShareBps`/10000 to
the creator and the remainder to the protocol fee recipient, zeroes the
pool and marks the curve graduated.  The share subtraction happens in the
let bindings, before the `asserts!`, and is underflow-checked. -/
def graduateInternal (w : World) (curveId : Nat) : Except CErr (Bool × World) :=
  match mapGet w.curves curveId with
  | none => .error errCurveNotFound
  | some curve =>
    if creatorShareOf curve ≤ curve.accruedFees then
      if curve.graduationStx ≤ curve.stxReserve then
        if curve.graduated then .error errGraduated
        else .ok (true, graduateCore w curveId curve)
      else .error errNotGraduated
    else .error CErr.underflow

/-- The curve record written by a successful `buy` (the `merge` of the
source). -/
def buyCurve (curve : Curve) (stxAmount : Nat) : Curve :=
  { curve with
    stxReserve := newStxReserveBuy curve stxAmount,
    tokensSold := curve.tokensSold + tokensOutBuy curve stxAmount,
    accruedFees := curve.accruedFees + tradeFee curve stxAmount }

/-- The state written by a successful `buy` before the auto-graduation
check: STX pulled into custody, curve reserve/supply/fees updated, buyer
credited. -/
def buyCore (w : World) (sender : Principal) (curveId stxAmount : Nat)
    (curve : Curve) : World :=
  { w with stxLog := ⟨sender, Principal.launchpadContract, stxAmount⟩ :: w.stxLog,
           curves := mapSet w.curves curveId (buyCurve curve stxAmount),
           balances := mapSet w.balances (curveId, sender)
             ((mapGet w.balances (curveId, sender)).getD 0 + tokensOutBuy curve stxAmount) }

/-- `agent-launchpad` `buy`.  The let-bound quote arithmetic runs before
the `asserts!`, exactly as in the source, so an underflowing subtraction
or a zero divisor aborts ahead of the discriminated validations. -/
def buy (w : World) (sender : Principal) (curveId stxAmount minTokensOut : Nat) :
    Except CErr ((Nat × Nat) × World) :=
  match mapGet w.curves curveId with
  | none => .error errCurveNotFound
  | some curve =>
    if tradeFee curve stxAmount ≤ stxAmount then
      if curve.tokensSold ≤ curve.totalSupply then
        if 0 < curve.virtualStx + newStxReserveBuy curve stxAmount then
          if newTokenReserveBuy curve stxAmount ≤ tokenReserve curve then
            if curve.graduated then .error errGraduated
            else if 0 < stxAmount then
              if 0 < tokenReserve curve then
                if 0 < tokensOutBuy curve stxAmount then
                  if minTokensOut ≤ tokensOutBuy curve stxAmount then
                    let wCore := buyCore w sender curveId stxAmount curve
                    if curve.graduationStx ≤ newStxReserveBuy curve stxAmount then
                      match graduateInternal wCore curveId with
                      | .ok (_, w4) =>
                        .ok ((tokensOutBuy curve stxAmount, tradeFee curve stxAmount), w4)
                      | .error e => .error e
                    else
                      .ok ((tokensOutBuy curve stxAmount, tradeFee curve stxAmount), wCore)
                  else .error errSlippage
                else .error errOverflow
              else .error errSoldOut
            else .error errZeroAmount
          else .error CErr.divZero
        else .error CErr.underflow
      else .error CErr.underflow
    else .error CErr.underflow

/-- The curve record written by a successful `sell`. -/
def sellCurve (curve : Curve) (tokenAmount : Nat) : Curve :=
  { curve with
    stxReserve := newStxReserveSell curve tokenAmount,
    tokensSold := curve.tokensSold - tokenAmount,
    accruedFees := curve.accruedFees + tradeFee curve (grossStxSell curve tokenAmount) }

/-- The state written by a successful `sell`: STX paid out of custody,
curve reserve/supply/fees updated, seller debited. -/
def sellCore (w : World) (sender : Principal) (curveId tokenAmount : Nat)
    (curve : Curve) (sellerBal : Nat) : World :=
  { w with stxLog := ⟨Principal.launchpadContract, sender, stxOutSell curve tokenAmount⟩ :: w.stxLog,
           curves := mapSet w.curves curveId (sellCurve curve tokenAmount),
           balances := mapSet w.balances (curveId, sender) (sellerBal - tokenAmount) }

/-- `agent-launchpad` `sell`.  As in the source, the whole quote is
let-bound first (aborting on underflow or a zero divisor), the `asserts!`
run next, and only then are the reserve, supply and balance written. -/
def sell (w : World) (sender : Principal) (curveId tokenAmount minStxOut : Nat) :
    Except CErr ((Nat × Nat) × World) :=
  match mapGet w.curves curveId with
  | none => .error errCurveNotFound
  | some curve =>
    match mapGet w.balances (curveId, sender) with
    | none => .error errInsufficientBalance
    | some sellerBal =>
      if curve.tokensSold ≤ curve.totalSupply then
        if 0 < newTokenReserveSell curve tokenAmount then
          if curve.virtualStx ≤ curve.k / newTokenReserveSell curve tokenAmount then
            if newStxReserveSell curve tokenAmount ≤ curve.stxReserve then
              if tradeFee curve (grossStxSell curve tokenAmount) ≤ grossStxSell curve tokenAmount then
                if curve.graduated then .error errGraduated
                else if 0 < tokenAmount then
                  if tokenAmount ≤ sellerBal then
                    if 0 < stxOutSell curve tokenAmount then
                      if minStxOut ≤ stxOutSell curve tokenAmount then
                        if tokenAmount ≤ curve.tokensSold then
                          .ok ((stxOutSell curve tokenAmount,
                                tradeFee curve (grossStxSell curve tokenAmount)),
                               sellCore w sender curveId tokenAmount curve sellerBal)
                        else .error CErr.underflow
                      else .error errSlippage
                    else .error errOverflow
                  else .error errInsufficientBalance
                else .error errZeroAmount
              else .error CErr.underflow
            else .error CErr.underflow
          else .error CErr.underflow
        else .error CErr.divZero
      else .error CErr.underflow

/-- The state written by a successful `transfer`: sender debited, then
recipient credited (recipient balance read before the debit, as in the
source's let bindings). -/
def transferCore (w : World) (sender : Principal) (curveId amount : Nat)
    (recipient : Principal) (senderBal : Nat) : World :=
  let balsA := mapSet w.balances (curveId, sender) (senderBal - amount)
  let balsB := mapSet balsA (curveId, recipient)
    ((mapGet w.balances (curveId, recipient)).getD 0 + amount)
  { w with balances := balsB }

/-- `agent-launchpad` `transfer`: pure ledger move between holders. -/
def transfer (w : World) (sender : Principal) (curveId amount : Nat)
    (recipient : Principal) : Except CErr (Bool × World) :=
  match mapGet w.balances (curveId, sender) with
  | none => .error errInsufficientBalance
  | some senderBal =>
    if (mapGet w.curves curveId).isSome then
      if 0 < amount then
        if sender = recipient then .error errSelfTransfer
        else if amount ≤ senderBal then
          .ok (true, transferCore w sender curveId amount recipient senderBal)
        else .error errInsufficientBalance
      else .error errZeroAmount
    else .error errCurveNotFound

/-- `agent-launchpad` `graduate` (public wrapper over `graduate-internal`). -/
def graduate (w : World) (curveId : Nat) : Except CErr (Bool × World) :=
  match graduateInternal w curveId with
  | .ok (_, w') => .ok (true, w')
  | .error e => .error e

/-- `agent-launchpad` `set-defaults` (admin only, validated). -/
def setDefaults (w : World) (sender : Principal)
    (newTotalSupply newVirtualStx newGraduationStx newFeeBps newCreatorShareBps : Nat) :
    Except CErr (Bool × World) :=
  if sender = w.lpAdmin then
    if 0 < newTotalSupply then
      if 0 < newVirtualStx then
        if 0 < newGraduationStx then
          if newFeeBps ≤ maxFeeBps then
            if newCreatorShareBps ≤ maxCreatorShareBps then
              .ok (true, { w with
                defaultTotalSupply := newTotalSupply,
                defaultVirtualStx := newVirtualStx,
                defaultGraduationStx := newGraduationStx,
                defaultFeeBps := newFeeBps,
                defaultCreatorShareBps := newCreatorShareBps })
            else .error errInvalidParams
          else .error errInvalidFee
        else .error errInvalidParams
      else .error errInvalidParams
    else .error errInvalidParams
  else .error errNotAdmin

/-- `agent-launchpad` `set-protocol-fee-recipient` (admin only). -/
def setProtocolFeeRecipient (w : World) (sender : Principal)
    (newRecipient : Principal) : Except CErr (Principal × World) :=
  if sender = w.lpAdmin then
    .ok (newRecipient, { w with protocolFeeRecipient := newRecipient })
  else .error errNotAdmin

/-- The receipt recorded by a successful `pay-via-curve`. -/
def payReceipt (w1 : World) (sender : Principal) (curveId stxAmount : Nat)
    (res : Nat × Nat) : Receipt :=
  { payer := sender, curveId := curveId, stxAmount := stxAmount,
    tokensReceived := res.1, fee := res.2, block := w1.blockHeight }

/-- The router state written after a successful delegated `buy`:
receipt persisted under the nonce, global stats bumped. -/
def payCore (w1 : World) (sender : Principal) (curveId stxAmount nonce : Nat)
    (res : Nat × Nat) : World :=
  { w1 with receipts := mapSet w1.receipts nonce (payReceipt w1 sender curveId stxAmount res),
            totalPayments := w1.totalPayments + 1,
            totalVolumeStx := w1.totalVolumeStx + stxAmount }

/-- `x402-curve-router` `pay-via-curve`: nonce freshness, nonzero amount,
delegate to `buy`, then persist the receipt and bump the global stats. -/
def payViaCurve (w : World) (sender : Principal)
    (curveId stxAmount nonce minTokensOut : Nat) :
    Except CErr ((Nat × Nat) × World) :=
  if (mapGet w.receipts nonce).isNone then
    if 0 < stxAmount then
      match buy w sender curveId stxAmount minTokensOut with
      | .error e => .error e
      | .ok (res, w1) => .ok (res, payCore w1 sender curveId stxAmount nonce res)
    else .error errZeroAmountRouter
  else .error errNonceUsed

/-- `agent-launchpad` `get-buy-quote` (read-only; same arithmetic as `buy`). -/
def getBuyQuote (w : World) (curveId stxAmount : Nat) : Except CErr (Nat × Nat) :=
  match mapGet w.curves curveId with
  | none => .error errCurveNotFound
  | some curve =>
    if tradeFee curve stxAmount ≤ stxAmount then
      if curve.tokensSold ≤ curve.totalSupply then
        if 0 < curve.virtualStx + newStxReserveBuy curve stxAmount then
          if newTokenReserveBuy curve stxAmount ≤ tokenReserve curve then
            .ok (tokensOutBuy curve stxAmount, tradeFee curve stxAmount)
          else .error CErr.underflow
        else .error CErr.divZero
      else .error CErr.underflow
    else .error CErr.underflow

def getPrice (w : World) (curveId : Nat) : Except CErr Nat :=
  match mapGet w.curves curveId with
  | none => .error errCurveNotFound
  | some curve =>
    if curve.tokensSold ≤ curve.totalSupply then
      if tokenReserve curve = 0 then .ok 0
      else .ok ((curve.virtualStx + curve.stxReserve) * priceScale / tokenReserve curve)
    else .error CErr.underflow

/-- `x402-curve-router` `verify-payment` (read-only). -/
def verifyPayment (w : World) (nonce : Nat) : Option Receipt :=
  mapGet w.receipts nonce

/-- `x402-curve-router` `is-nonce-available` (read-only). -/
def isNonceAvailable (w : World) (nonce : Nat) : Bool :=
  (mapGet w.receipts nonce).isNone

/-- The public operations of the system, each tagged with its `tx-sender`;
`advanceBlock` models the host chain advancing between transactions. -/
inductive Op where
  | registerAgent (sender : Principal) (name descriptionUrl : String)
      (pricePerTask : Nat) (acceptsStx acceptsSip010 : Bool)
  | launch (sender : Principal) (name symbol : String)
  | buy (sender : Principal) (curveId stxAmount minTokensOut : Nat)
  | sell (sender : Principal) (curveId tokenAmount minStxOut : Nat)
  | transfer (sender : Principal) (curveId amount : Nat) (recipient : Principal)
  | graduate (sender : Principal) (curveId : Nat)
  | setDefaults (sender : Principal) (ts vs grad fee share : Nat)
  | setProtocolFeeRecipient (sender : Principal) (recipient : Principal)
  | payViaCurve (sender : Principal) (curveId stxAmount nonce minTokensOut : Nat)
  | advanceBlock

/-- One transaction: the state transition of the chosen operation. -/
def step (w : World) : Op → Except CErr World
  | .registerAgent s n d p a b => (registerAgent w s n d p a b).map (·.2)
  | .launch s n sy => (launch w s n sy).map (·.2)
  | .buy s cid amt minOut => (buy w s cid amt minOut).map (·.2)
  | .sell s cid amt minOut => (sell w s cid amt minOut).map (·.2)
  | .transfer s cid amt r => (transfer w s cid amt r).map (·.2)
  | .graduate _ cid => (graduate w cid).map (·.2)
  | .setDefaults s a b c d e => (setDefaults w s a b c d e).map (·.2)
  | .setProtocolFeeRecipient s r => (setProtocolFeeRecipient w s r).map (·.2)
  | .payViaCurve s cid amt nonce minOut => (payViaCurve w s cid amt nonce minOut).map (·.2)
  | .advanceBlock => .ok { w with blockHeight := w.blockHeight + 1 }

/-- Host commit-or-abort semantics: a failing transaction leaves the
state untouched. -/
def runOp (w : World) (op : Op) : World :=
  match step w op with
  | .ok w' => w'
  | .error _ => w

/-- States reachable from a fresh deployment by any sequence of
transactions. -/
inductive Reachable : World → Prop where
  | init (deployer : Principal) : Reachable (initWorld deployer)
  | next {w w' : World} (op : Op) : Reachable w → step w op = .ok w' → Reachable w'

/-! ### Arithmetic helper lemmas about floor division -/

theorem mulDivLe (a b : Nat) : b * (a / b) ≤ a := by
  conv_rhs => rw [← Nat.div_add_mod a b]
  omega

theorem ltMulDivSucc {b : Nat} (a : Nat) (hb : 0 < b) : a < b * (a / b + 1) := by
  have h1 := Nat.div_add_mod a b
  have h2 := Nat.mod_lt a hb
  have h3 : b * (a / b + 1) = b * (a / b) + b := by ring
  omega

theorem divLtOfLtMul {a b c : Nat} (h : a < b * c) : a / b < c := by
  by_contra hcon
  push_neg at hcon
  have h2 : b * c ≤ b * (a / b) := Nat.mul_le_mul_left _ hcon
  have h3 := mulDivLe a b
  omega

theorem leDivOfMulLe {a b c : Nat} (hb : 0 < b) (h : b * c ≤ a) : c ≤ a / b := by
  by_contra hcon
  push_neg at hcon
  have h2 : b * (a / b + 1) ≤ b * c := Nat.mul_le_mul_left _ (by omega)
  have h3 := ltMulDivSucc a hb
  omega

theorem divAntitone (a : Nat) {b c : Nat} (hb : 0 < b) (h : b ≤ c) : a / c ≤ a / b := by
  by_contra hcon
  push_neg at hcon
  have h1 : b * (a / c) ≤ a := le_trans (Nat.mul_le_mul_left _ (le_refl _)) <| by
    calc b * (a / c) ≤ c * (a / c) := Nat.mul_le_mul_right _ h
    _ ≤ a := mulDivLe a c
  have h2 : b * (a / b + 1) ≤ b * (a / c) := Nat.mul_le_mul_left _ (by omega)
  have h3 := ltMulDivSucc a hb
  omega

theorem feeLe {amt bps : Nat} (hbps : bps ≤ bpsDenom) : amt * bps / bpsDenom ≤ amt := by
  calc amt * bps / bpsDenom ≤ amt * bpsDenom / bpsDenom :=
        Nat.div_le_div_right (Nat.mul_le_mul_left _ hbps)
  _ = amt := Nat.mul_div_cancel _ (by norm_num [bpsDenom])

theorem feeLtOfPos {amt bps : Nat} (hbps : bps ≤ maxFeeBps) (hamt : 0 < amt) :
    amt * bps / bpsDenom < amt := by
  apply divLtOfLtMul
  have h1 : amt * bps ≤ amt * maxFeeBps := Nat.mul_le_mul_left _ hbps
  have h2 : amt * maxFeeBps < amt * bpsDenom := by
    apply (Nat.mul_lt_mul_left hamt).mpr
    norm_num [maxFeeBps, bpsDenom]
  have h3 : amt * bpsDenom = bpsDenom * amt := Nat.mul_comm _ _
  omega

/-! ### Association-map lemmas -/

theorem mapGet_mapSet_self [DecidableEq α] (m : List (α × β)) (k : α) (v : β) :
    mapGet (mapSet m k v) k = some v := by
  induction m with
  | nil => simp [mapGet, mapSet]
  | cons p rest ih =>
    by_cases h : k = p.1
    · simp [mapGet, mapSet, h]
    · simp [mapGet, mapSet, h, ih]

theorem mapGet_mapSet_ne [DecidableEq α] (m : List (α × β)) {k k' : α} (v : β)
    (hne : k' ≠ k) : mapGet (mapSet m k v) k' = mapGet m k' := by
  induction m with
  | nil => simp [mapGet, mapSet, hne]
  | cons p rest ih =>
    by_cases hk : k = p.1
    · subst hk
      simp [mapGet, mapSet, hne]
    · by_cases hk' : k' = p.1
      · simp [mapGet, mapSet, hk, hk']
      · simp [mapGet, mapSet, hk, hk', ih]

theorem mem_mapSet [DecidableEq α] {m : List (α × β)} {k : α} {v : β} {p : α × β} :
    p ∈ mapSet m k v → p = (k, v) ∨ p ∈ m := by
  induction m with
  | nil =>
    intro hmem
    simpa [mapSet] using hmem
  | cons q rest ih =>
    intro hmem
    by_cases hk : k = q.1
    · simp only [mapSet, if_pos hk, List.mem_cons] at hmem
      rcases hmem with h1 | h1
      · left; exact h1
      · right; exact List.mem_cons_of_mem _ h1
    · simp only [mapSet, if_neg hk, List.mem_cons] at hmem
      rcases hmem with h1 | h1
      · right
        rw [List.mem_cons]
        left
        exact h1
      · rcases ih h1 with h2 | h2
        · left; exact h2
        · right; exact List.mem_cons_of_mem _ h2

theorem mapGet_mem [DecidableEq α] {m : List (α × β)} {k : α} {v : β} :
    mapGet m k = some v → (k, v) ∈ m := by
  induction m with
  | nil =>
    intro hget
    simp [mapGet] at hget
  | cons q rest ih =>
    intro hget
    by_cases hk : k = q.1
    · simp only [mapGet, if_pos hk, Option.some.injEq] at hget
      subst hget
      subst hk
      exact List.mem_cons_self _ _
    · simp only [mapGet, if_neg hk] at hget
      exact List.mem_cons_of_mem _ (ih hget)

theorem mapGet_eq_none [DecidableEq α] {m : List (α × β)} {k : α} :
    (∀ p ∈ m, p.1 ≠ k) → mapGet m k = none := by
  induction m with
  | nil =>
    intro _
    simp [mapGet]
  | cons q rest ih =>
    intro h
    have hq : q.1 ≠ k := h q (List.mem_cons_self _ _)
    have hk : ¬(k = q.1) := fun hkk => hq hkk.symm
    simp only [mapGet, if_neg hk]
    exact ih fun p hp => h p (List.mem_cons_of_mem _ hp)

/-! ### Per-curve balance totals -/

/-- Total of all holder balances recorded for curve `cid`. -/
def sumBal : List ((Nat × Principal) × Nat) → Nat → Nat
  | [], _ => 0
  | b :: rest, cid => (if b.1.1 = cid then b.2 else 0) + sumBal rest cid

theorem sumBal_cons_same {b : (Nat × Principal) × Nat}
    {rest : List ((Nat × Principal) × Nat)} {cid : Nat} (h : b.1.1 = cid) :
    sumBal (b :: rest) cid = b.2 + sumBal rest cid := by
  simp [sumBal, h]

theorem sumBal_cons_other {b : (Nat × Principal) × Nat}
    {rest : List ((Nat × Principal) × Nat)} {cid : Nat} (h : b.1.1 ≠ cid) :
    sumBal (b :: rest) cid = sumBal rest cid := by
  simp [sumBal, h]

theorem sumBal_mapSet_same (bals : List ((Nat × Principal) × Nat))
    (cid : Nat) (holder : Principal) (v : Nat) :
    sumBal (mapSet bals (cid, holder) v) cid + (mapGet bals (cid, holder)).getD 0 =
      sumBal bals cid + v := by
  induction bals with
  | nil => simp [sumBal, mapSet, mapGet]
  | cons q rest ih =>
    by_cases hk : (cid, holder) = q.1
    · have hq : q.1.1 = cid := by rw [← hk]
      simp only [mapSet, if_pos hk, mapGet, if_pos hk, Option.getD_some]
      rw [sumBal_cons_same (show ((cid, holder), v).1.1 = cid from rfl),
        sumBal_cons_same hq]
      omega
    · simp only [mapSet, if_neg hk, mapGet, if_neg hk]
      by_cases hq : q.1.1 = cid
      · rw [sumBal_cons_same hq, sumBal_cons_same hq]
        omega
      · rw [sumBal_cons_other hq, sumBal_cons_other hq]
        exact ih

theorem sumBal_mapSet_other (bals : List ((Nat × Principal) × Nat))
    {cid cid' : Nat} (holder : Principal) (v : Nat) (h : cid' ≠ cid) :
    sumBal (mapSet bals (cid', holder) v) cid = sumBal bals cid := by
  induction bals with
  | nil => simp [sumBal, mapSet, h]
  | cons q rest ih =>
    by_cases hk : (cid', holder) = q.1
    · have hq : q.1.1 = cid' := by rw [← hk]
      simp only [mapSet, if_pos hk]
      rw [sumBal_cons_other (by simpa using h), sumBal_cons_other (hq ▸ h)]
    · simp only [mapSet, if_neg hk]
      by_cases hq : q.1.1 = cid
      · rw [sumBal_cons_same hq, sumBal_cons_same hq, ih]
      · rw [sumBal_cons_other hq, sumBal_cons_other hq, ih]

theorem mapGet_le_sumBal {bals : List ((Nat × Principal) × Nat)}
    {cid : Nat} {holder : Principal} {v : Nat} :
    mapGet bals (cid, holder) = some v → v ≤ sumBal bals cid := by
  induction bals with
  | nil =>
    intro hget
    simp [mapGet] at hget
  | cons q rest ih =>
    intro hget
    by_cases hk : (cid, holder) = q.1
    · have hq : q.1.1 = cid := by rw [← hk]
      simp only [mapGet, if_pos hk, Option.some.injEq] at hget
      subst hget
      rw [sumBal_cons_same hq]
      omega
    · simp only [mapGet, if_neg hk] at hget
      have h2 := ih hget
      by_cases hq : q.1.1 = cid
      · rw [sumBal_cons_same hq]
        omega
      · rw [sumBal_cons_other hq]
        exact h2

theorem sumBal_eq_zero {bals : List ((Nat × Principal) × Nat)} {cid : Nat} :
    (∀ b ∈ bals, b.1.1 ≠ cid) → sumBal bals cid = 0 := by
  induction bals with
  | nil =>
    intro _
    rfl
  | cons q rest ih =>
    intro h
    have hq : q.1.1 ≠ cid := h q (List.mem_cons_self _ _)
    rw [sumBal_cons_other hq]
    exact ih fun b hb => h b (List.mem_cons_of_mem _ hb)

/-! ### Invariants -/

/-- Structural invariant of a single curve record: launch-time parameter
sanity, the constancy relation `k = virtualStx * totalSupply`, and the
constant-product relation up to the floor rounding of one division: the
product `(virtualStx + stxReserve) * (totalSupply - tokensSold)` never
exceeds `k`, and falls short of it by less than one divisor. -/
def CurveOk (c : Curve) : Prop :=
  0 < c.totalSupply ∧ 0 < c.virtualStx ∧ c.feeBps ≤ maxFeeBps ∧
  c.creatorShareBps ≤ maxCreatorShareBps ∧ c.k = c.virtualStx * c.totalSupply ∧
  c.tokensSold ≤ c.totalSupply ∧
  (c.virtualStx + c.stxReserve) * (c.totalSupply - c.tokensSold) ≤ c.k ∧
  c.k < (c.virtualStx + c.stxReserve + 1) * (c.totalSupply - c.tokensSold + 1)

/-- Invariant of the curve visible under id `cid` (vacuous when absent):
fresh-id discipline, the structural curve invariant, and conservation of
tokens (the holder balances of the curve sum to its `tokensSold`). -/
def CurveEntryOk (w : World) (cid : Nat) : Prop :=
  match mapGet w.curves cid with
  | none => True
  | some c => cid < w.totalCurves ∧ CurveOk c ∧ sumBal w.balances cid = c.tokensSold

/-- Global invariant: validated defaults, every stored curve satisfies
`CurveEntryOk`, and every balance belongs to an allocated curve id. -/
def WorldOk (w : World) : Prop :=
  0 < w.defaultTotalSupply ∧ 0 < w.defaultVirtualStx ∧
  w.defaultFeeBps ≤ maxFeeBps ∧ w.defaultCreatorShareBps ≤ maxCreatorShareBps ∧
  (∀ p ∈ w.curves, CurveEntryOk w p.1) ∧
  (∀ b ∈ w.balances, b.1.1 < w.totalCurves)

theorem worldOk_curve {w : World} {cid : Nat} {c : Curve}
    (hw : WorldOk w) (hget : mapGet w.curves cid = some c) :
    cid < w.totalCurves ∧ CurveOk c ∧ sumBal w.balances cid = c.tokensSold := by
  have hmem := mapGet_mem hget
  have h2 := hw.2.2.2.2.1 (cid, c) hmem
  unfold CurveEntryOk at h2
  rw [hget] at h2
  exact h2

theorem worldOk_initWorld (deployer : Principal) : WorldOk (initWorld deployer) := by
  refine ⟨by norm_num [initWorld], by norm_num [initWorld],
    by norm_num [initWorld, maxFeeBps], by norm_num [initWorld, maxCreatorShareBps],
    ?_, ?_⟩
  · intro p hp
    simp [initWorld] at hp
  · intro b hb
    simp [initWorld] at hb

/-! ### Characterizations of the successful operations -/

theorem graduateInternal_ok_intro {w : World} {cid : Nat} {curve : Curve}
    (hc : mapGet w.curves cid = some curve)
    (hA : creatorShareOf curve ≤ curve.accruedFees)
    (hB : curve.graduationStx ≤ curve.stxReserve)
    (hC : curve.graduated = false) :
    graduateInternal w cid = .ok (true, graduateCore w cid curve) := by
  simp only [graduateInternal, hc, if_pos hA, if_pos hB, hC, Bool.false_eq_true, if_false]

theorem graduateInternal_ok_elim {w : World} {cid : Nat} {b : Bool} {w' : World}
    (h : graduateInternal w cid = .ok (b, w')) :
    ∃ curve, mapGet w.curves cid = some curve ∧
      creatorShareOf curve ≤ curve.accruedFees ∧
      curve.graduationStx ≤ curve.stxReserve ∧
      curve.graduated = false ∧ b = true ∧ w' = graduateCore w cid curve := by
  rcases hget : mapGet w.curves cid with _ | curve
  · simp only [graduateInternal, hget] at h
    exact Except.noConfusion h
  · refine ⟨curve, rfl, ?__⟩
    by_cases hA : creatorShareOf curve ≤ curve.accruedFees
    case neg =>
      simp only [graduateInternal, hget, if_neg hA] at h
      exact Except.noConfusion h
    cases hC : curve.graduated with
    | true =>
      simp only [graduateInternal, hget, if_pos hA, hC, eq_self_iff_true, if_true] at h
      split at h <;> exact Except.noConfusion h
    | false =>
      by_cases hB : curve.graduationStx ≤ curve.stxReserve
      case neg =>
        simp only [graduateInternal, hget, if_pos hA, if_neg hB] at h
        exact Except.noConfusion h
      have hok := graduateInternal_ok_intro hget hA hB hC
      have h2 := hok.symm.trans h
      simp only [Except.ok.injEq, Prod.mk.injEq] at h2
      exact ⟨hA, hB, rfl, h2.1.symm, h2.2.symm⟩

theorem mapGet_buyCore_self (w : World) (sender : Principal)
    (curveId stxAmount : Nat) (curve : Curve) :
    mapGet (buyCore w sender curveId stxAmount curve).curves curveId =
      some (buyCurve curve stxAmount) := by
  simp [buyCore, mapGet_mapSet_self]

theorem buy_ok_intro_plain {w : World} {sender : Principal}
    {curveId stxAmount minTokensOut : Nat} {curve : Curve}
    (hget : mapGet w.curves curveId = some curve)
    (h1 : tradeFee curve stxAmount ≤ stxAmount)
    (h2 : curve.tokensSold ≤ curve.totalSupply)
    (h3 : 0 < curve.virtualStx + newStxReserveBuy curve stxAmount)
    (h4 : newTokenReserveBuy curve stxAmount ≤ tokenReserve curve)
    (h5 : curve.graduated = false)
    (h6 : 0 < stxAmount)
    (h7 : 0 < tokenReserve curve)
    (h8 : 0 < tokensOutBuy curve stxAmount)
    (h9 : minTokensOut ≤ tokensOutBuy curve stxAmount)
    (h10 : ¬ curve.graduationStx ≤ newStxReserveBuy curve stxAmount) :
    buy w sender curveId stxAmount minTokensOut =
      .ok ((tokensOutBuy curve stxAmount, tradeFee curve stxAmount),
           buyCore w sender curveId stxAmount curve) := by
  simp only [buy, hget, if_pos h1, if_pos h2, if_pos h3, if_pos h4,
    if_neg (show ¬(curve.graduated = true) by simp [h5]), if_pos h6, if_pos h7,
    if_pos h8, if_pos h9, if_neg h10]

theorem buy_ok_intro_grad {w : World} {sender : Principal}
    {curveId stxAmount minTokensOut : Nat} {curve : Curve}
    (hget : mapGet w.curves curveId = some curve)
    (h1 : tradeFee curve stxAmount ≤ stxAmount)
    (h2 : curve.tokensSold ≤ curve.totalSupply)
    (h3 : 0 < curve.virtualStx + newStxReserveBuy curve stxAmount)
    (h4 : newTokenReserveBuy curve stxAmount ≤ tokenReserve curve)
    (h5 : curve.graduated = false)
    (h6 : 0 < stxAmount)
    (h7 : 0 < tokenReserve curve)
    (h8 : 0 < tokensOutBuy curve stxAmount)
    (h9 : minTokensOut ≤ tokensOutBuy curve stxAmount)
    (h10 : curve.graduationStx ≤ newStxReserveBuy curve stxAmount)
    (hsh : creatorShareOf (buyCurve curve stxAmount) ≤
      (buyCurve curve stxAmount).accruedFees) :
    buy w sender curveId stxAmount minTokensOut =
      .ok ((tokensOutBuy curve stxAmount, tradeFee curve stxAmount),
           graduateCore (buyCore w sender curveId stxAmount curve) curveId
             (buyCurve curve stxAmount)) := by
  have hgi := graduateInternal_ok_intro (mapGet_buyCore_self w sender curveId stxAmount curve)
    hsh (show (buyCurve curve stxAmount).graduationStx ≤
      (buyCurve curve stxAmount).stxReserve from h10)
    (show (buyCurve curve stxAmount).graduated = false from h5)
  simp only [buy, hget, if_pos h1, if_pos h2, if_pos h3, if_pos h4,
    if_neg (show ¬(curve.graduated = true) by simp [h5]), if_pos h6, if_pos h7,
    if_pos h8, if_pos h9, if_pos h10, hgi]

theorem buy_ok_elim {w : World} {sender : Principal}
    {curveId stxAmount minTokensOut : Nat} {res : Nat × Nat} {w' : World}
    (h : buy w sender curveId stxAmount minTokensOut = .ok (res, w')) :
    ∃ curve, mapGet w.curves curveId = some curve ∧
      tradeFee curve stxAmount ≤ stxAmount ∧
      curve.tokensSold ≤ curve.totalSupply ∧
      0 < curve.virtualStx + newStxReserveBuy curve stxAmount ∧
      newTokenReserveBuy curve stxAmount ≤ tokenReserve curve ∧
      curve.graduated = false ∧ 0 < stxAmount ∧ 0 < tokenReserve curve ∧
      0 < tokensOutBuy curve stxAmount ∧
      minTokensOut ≤ tokensOutBuy curve stxAmount ∧
      res = (tokensOutBuy curve stxAmount, tradeFee curve stxAmount) ∧
      ((¬ curve.graduationStx ≤ newStxReserveBuy curve stxAmount ∧
          w' = buyCore w sender curveId stxAmount curve) ∨
        (curve.graduationStx ≤ newStxReserveBuy curve stxAmount ∧
          graduateInternal (buyCore w sender curveId stxAmount curve) curveId =
            .ok (true, w'))) := by
  rcases hget : mapGet w.curves curveId with _ | curve
  · simp only [buy, hget] at h
    exact Except.noConfusion h
  refine ⟨curve, rfl, ?__⟩
  by_cases h1 : tradeFee curve stxAmount ≤ stxAmount
  case neg =>
    simp only [buy, hget, if_neg h1] at h
    exact Except.noConfusion h
  by_cases h2 : curve.tokensSold ≤ curve.totalSupply
  case neg =>
    simp only [buy, hget, if_pos h1, if_neg h2] at h
    exact Except.noConfusion h
  by_cases h3 : 0 < curve.virtualStx + newStxReserveBuy curve stxAmount
  case neg =>
    simp only [buy, hget, if_pos h1, if_pos h2, if_neg h3] at h
    exact Except.noConfusion h
  by_cases h4 : newTokenReserveBuy curve stxAmount ≤ tokenReserve curve
  case neg =>
    simp only [buy, hget, if_pos h1, if_pos h2, if_pos h3, if_neg h4] at h
    exact Except.noConfusion h
  cases h5 : curve.graduated with
  | true =>
    simp only [buy, hget, if_pos h1, if_pos h2, if_pos h3, if_pos h4, h5,
      eq_self_iff_true, if_true] at h
    exact Except.noConfusion h
  | false =>
  by_cases h6 : 0 < stxAmount
  case neg =>
    simp only [buy, hget, if_pos h1, if_pos h2, if_pos h3, if_pos h4,
      if_neg (show ¬(curve.graduated = true) by simp [h5]), if_neg h6] at h
    exact Except.noConfusion h
  by_cases h7 : 0 < tokenReserve curve
  case neg =>
    simp only [buy, hget, if_pos h1, if_pos h2, if_pos h3, if_pos h4,
      if_neg (show ¬(curve.graduated = true) by simp [h5]), if_pos h6, if_neg h7] at h
    exact Except.noConfusion h
  by_cases h8 : 0 < tokensOutBuy curve stxAmount
  case neg =>
    simp only [buy, hget, if_pos h1, if_pos h2, if_pos h3, if_pos h4,
      if_neg (show ¬(curve.graduated = true) by simp [h5]), if_pos h6, if_pos h7,
      if_neg h8] at h
    exact Except.noConfusion h
  by_cases h9 : minTokensOut ≤ tokensOutBuy curve stxAmount
  case neg =>
    simp only [buy, hget, if_pos h1, if_pos h2, if_pos h3, if_pos h4,
      if_neg (show ¬(curve.graduated = true) by simp [h5]), if_pos h6, if_pos h7,
      if_pos h8, if_neg h9] at h
    exact Except.noConfusion h
  by_cases h10 : curve.graduationStx ≤ newStxReserveBuy curve stxAmount
  case neg =>
    have hok := @buy_ok_intro_plain w sender curveId stxAmount minTokensOut curve
      hget h1 h2 h3 h4 h5 h6 h7 h8 h9 h10
    have h2' := hok.symm.trans h
    simp only [Except.ok.injEq, Prod.mk.injEq] at h2'
    exact ⟨h1, h2, h3, h4, rfl, h6, h7, h8, h9, h2'.1.symm, Or.inl ⟨h10, h2'.2.symm⟩⟩
  rcases hgi : graduateInternal (buyCore w sender curveId stxAmount curve) curveId
    with e | ⟨bb, w4⟩
  · simp only [buy, hget, if_pos h1, if_pos h2, if_pos h3, if_pos h4,
      if_neg (show ¬(curve.graduated = true) by simp [h5]), if_pos h6, if_pos h7,
      if_pos h8, if_pos h9, if_pos h10, hgi] at h
    exact Except.noConfusion h
  · simp only [buy, hget, if_pos h1, if_pos h2, if_pos h3, if_pos h4,
      if_neg (show ¬(curve.graduated = true) by simp [h5]), if_pos h6, if_pos h7,
      if_pos h8, if_pos h9, if_pos h10, hgi, Except.ok.injEq, Prod.mk.injEq] at h
    obtain ⟨hres, hw⟩ := h
    obtain ⟨c2, _, _, _, _, hbb, _⟩ := graduateInternal_ok_elim hgi
    subst hbb
    exact ⟨h1, h2, h3, h4, rfl, h6, h7, h8, h9, hres.symm, Or.inr ⟨h10, by rw [hw]⟩⟩

theorem sell_ok_intro {w : World} {sender : Principal}
    {curveId tokenAmount minStxOut : Nat} {curve : Curve} {sellerBal : Nat}
    (hget : mapGet w.curves curveId = some curve)
    (hbal : mapGet w.balances (curveId, sender) = some sellerBal)
    (s1 : curve.tokensSold ≤ curve.totalSupply)
    (s2 : 0 < newTokenReserveSell curve tokenAmount)
    (s3 : curve.virtualStx ≤ curve.k / newTokenReserveSell curve tokenAmount)
    (s4 : newStxReserveSell curve tokenAmount ≤ curve.stxReserve)
    (s5 : tradeFee curve (grossStxSell curve tokenAmount) ≤ grossStxSell curve tokenAmount)
    (s6 : curve.graduated = false)
    (s7 : 0 < tokenAmount)
    (s8 : tokenAmount ≤ sellerBal)
    (s9 : 0 < stxOutSell curve tokenAmount)
    (s10 : minStxOut ≤ stxOutSell curve tokenAmount)
    (s11 : tokenAmount ≤ curve.tokensSold) :
    sell w sender curveId tokenAmount minStxOut =
      .ok ((stxOutSell curve tokenAmount, tradeFee curve (grossStxSell curve tokenAmount)),
           sellCore w sender curveId tokenAmount curve sellerBal) := by
  simp only [sell, hget, hbal, if_pos s1, if_pos s2, if_pos s3, if_pos s4, if_pos s5,
    if_neg (show ¬(curve.graduated = true) by simp [s6]), if_pos s7, if_pos s8,
    if_pos s9, if_pos s10, if_pos s11]

theorem sell_ok_elim {w : World} {sender : Principal}
    {curveId tokenAmount minStxOut : Nat} {res : Nat × Nat} {w' : World}
    (h : sell w sender curveId tokenAmount minStxOut = .ok (res, w')) :
    ∃ curve sellerBal, mapGet w.curves curveId = some curve ∧
      mapGet w.balances (curveId, sender) = some sellerBal ∧
      curve.tokensSold ≤ curve.totalSupply ∧
      curve.virtualStx ≤ curve.k / newTokenReserveSell curve tokenAmount ∧
      newStxReserveSell curve tokenAmount ≤ curve.stxReserve ∧
      tradeFee curve (grossStxSell curve tokenAmount) ≤ grossStxSell curve tokenAmount ∧
      curve.graduated = false ∧ 0 < tokenAmount ∧ tokenAmount ≤ sellerBal ∧
      0 < stxOutSell curve tokenAmount ∧
      minStxOut ≤ stxOutSell curve tokenAmount ∧
      tokenAmount ≤ curve.tokensSold ∧
      res = (stxOutSell curve tokenAmount, tradeFee curve (grossStxSell curve tokenAmount)) ∧
      w' = sellCore w sender curveId tokenAmount curve sellerBal := by
  rcases hget : mapGet w.curves curveId with _ | curve
  · simp only [sell, hget] at h
    exact Except.noConfusion h
  rcases hbal : mapGet w.balances (curveId, sender) with _ | sellerBal
  · simp only [sell, hget, hbal] at h
    exact Except.noConfusion h
  refine ⟨curve, sellerBal, rfl, rfl, ?__⟩
  by_cases s1 : curve.tokensSold ≤ curve.totalSupply
  case neg =>
    simp only [sell, hget, hbal, if_neg s1] at h
    exact Except.noConfusion h
  by_cases s2 : 0 < newTokenReserveSell curve tokenAmount
  case neg =>
    simp only [sell, hget, hbal, if_pos s1, if_neg s2] at h
    exact Except.noConfusion h
  by_cases s3 : curve.virtualStx ≤ curve.k / newTokenReserveSell curve tokenAmount
  case neg =>
    simp only [sell, hget, hbal, if_pos s1, if_pos s2, if_neg s3] at h
    exact Except.noConfusion h
  by_cases s4 : newStxReserveSell curve tokenAmount ≤ curve.stxReserve
  case neg =>
    simp only [sell, hget, hbal, if_pos s1, if_pos s2, if_pos s3, if_neg s4] at h
    exact Except.noConfusion h
  by_cases s5 : tradeFee curve (grossStxSell curve tokenAmount) ≤ grossStxSell curve tokenAmount
  case neg =>
    simp only [sell, hget, hbal, if_pos s1, if_pos s2, if_pos s3, if_pos s4, if_neg s5] at h
    exact Except.noConfusion h
  cases s6 : curve.graduated with
  | true =>
    simp only [sell, hget, hbal, if_pos s1, if_pos s2, if_pos s3, if_pos s4, if_pos s5,
      s6, eq_self_iff_true, if_true] at h
    exact Except.noConfusion h
  | false =>
  by_cases s7 : 0 < tokenAmount
  case neg =>
    simp only [sell, hget, hbal, if_pos s1, if_pos s2, if_pos s3, if_pos s4, if_pos s5,
      if_neg (show ¬(curve.graduated = true) by simp [s6]), if_neg s7] at h
    exact Except.noConfusion h
  by_cases s8 : tokenAmount ≤ sellerBal
  case neg =>
    simp only [sell, hget, hbal, if_pos s1, if_pos s2, if_pos s3, if_pos s4, if_pos s5,
      if_neg (show ¬(curve.graduated = true) by simp [s6]), if_pos s7, if_neg s8] at h
    exact Except.noConfusion h
  by_cases s9 : 0 < stxOutSell curve tokenAmount
  case neg =>
    simp only [sell, hget, hbal, if_pos s1, if_pos s2, if_pos s3, if_pos s4, if_pos s5,
      if_neg (show ¬(curve.graduated = true) by simp [s6]), if_pos s7, if_pos s8,
      if_neg s9] at h
    exact Except.noConfusion h
  by_cases s10 : minStxOut ≤ stxOutSell curve tokenAmount
  case neg =>
    simp only [sell, hget, hbal, if_pos s1, if_pos s2, if_pos s3, if_pos s4, if_pos s5,
      if_neg (show ¬(curve.graduated = true) by simp [s6]), if_pos s7, if_pos s8,
      if_pos s9, if_neg s10] at h
    exact Except.noConfusion h
  by_cases s11 : tokenAmount ≤ curve.tokensSold
  case neg =>
    simp only [sell, hget, hbal, if_pos s1, if_pos s2, if_pos s3, if_pos s4, if_pos s5,
      if_neg (show ¬(curve.graduated = true) by simp [s6]), if_pos s7, if_pos s8,
      if_pos s9, if_pos s10, if_neg s11] at h
    exact Except.noConfusion h
  have hok := @sell_ok_intro w sender curveId tokenAmount minStxOut curve sellerBal
    hget hbal s1 s2 s3 s4 s5 s6 s7 s8 s9 s10 s11
  have h2 := hok.symm.trans h
  simp only [Except.ok.injEq, Prod.mk.injEq] at h2
  exact ⟨s1, s3, s4, s5, rfl, s7, s8, s9, s10, s11, h2.1.symm, h2.2.symm⟩

theorem transfer_ok_elim {w : World} {sender : Principal}
    {curveId amount : Nat} {recipient : Principal} {b : Bool} {w' : World}
    (h : transfer w sender curveId amount recipient = .ok (b, w')) :
    ∃ senderBal, mapGet w.balances (curveId, sender) = some senderBal ∧
      (mapGet w.curves curveId).isSome = true ∧ 0 < amount ∧
      sender ≠ recipient ∧ amount ≤ senderBal ∧ b = true ∧
      w' = transferCore w sender curveId amount recipient senderBal := by
  rcases hbal : mapGet w.balances (curveId, sender) with _ | senderBal
  · simp only [transfer, hbal] at h
    exact Except.noConfusion h
  refine ⟨senderBal, rfl, ?__⟩
  by_cases t1 : (mapGet w.curves curveId).isSome = true
  case neg =>
    simp only [transfer, hbal, if_neg t1] at h
    exact Except.noConfusion h
  by_cases t2 : 0 < amount
  case neg =>
    simp only [transfer, hbal, if_pos t1, if_neg t2] at h
    exact Except.noConfusion h
  by_cases t3 : sender = recipient
  case pos =>
    simp only [transfer, hbal, if_pos t1, if_pos t2, if_pos t3] at h
    exact Except.noConfusion h
  by_cases t4 : amount ≤ senderBal
  case neg =>
    simp only [transfer, hbal, if_pos t1, if_pos t2, if_neg t3, if_neg t4] at h
    exact Except.noConfusion h
  simp only [transfer, hbal, if_pos t1, if_pos t2, if_neg t3, if_pos t4,
    Except.ok.injEq, Prod.mk.injEq] at h
  exact ⟨t1, t2, t3, t4, h.1.symm, h.2.symm⟩

theorem launch_ok_elim {w : World} {sender : Principal} {name symbol : String}
    {cid : Nat} {w' : World}
    (h : launch w sender name symbol = .ok (cid, w')) :
    isRegistered w sender = true ∧ mapGet w.agentCurve sender = none ∧
      0 < name.length ∧ 0 < symbol.length ∧
      0 < w.defaultTotalSupply ∧ 0 < w.defaultVirtualStx ∧
      cid = w.totalCurves ∧ w' = launchCore w sender name symbol := by
  by_cases l1 : isRegistered w sender = true
  case neg =>
    simp only [launch, if_neg l1] at h
    exact Except.noConfusion h
  cases l2 : mapGet w.agentCurve sender with
  | some existing =>
    simp only [launch, if_pos l1, l2, Option.isSome_some, eq_self_iff_true, if_true] at h
    exact Except.noConfusion h
  | none =>
  by_cases l3 : 0 < name.length
  case neg =>
    simp only [launch, if_pos l1, l2, Option.isSome_none, Bool.false_eq_true,
      if_false, if_neg l3] at h
    exact Except.noConfusion h
  by_cases l4 : 0 < symbol.length
  case neg =>
    simp only [launch, if_pos l1, l2, Option.isSome_none, Bool.false_eq_true,
      if_false, if_pos l3, if_neg l4] at h
    exact Except.noConfusion h
  by_cases l5 : 0 < w.defaultTotalSupply
  case neg =>
    simp only [launch, if_pos l1, l2, Option.isSome_none, Bool.false_eq_true,
      if_false, if_pos l3, if_pos l4, if_neg l5] at h
    exact Except.noConfusion h
  by_cases l6 : 0 < w.defaultVirtualStx
  case neg =>
    simp only [launch, if_pos l1, l2, Option.isSome_none, Bool.false_eq_true,
      if_false, if_pos l3, if_pos l4, if_pos l5, if_neg l6] at h
    exact Except.noConfusion h
  simp only [launch, if_pos l1, l2, Option.isSome_none, Bool.false_eq_true,
    if_false, if_pos l3, if_pos l4, if_pos l5, if_pos l6,
    Except.ok.injEq, Prod.mk.injEq] at h
  exact ⟨l1, rfl, l3, l4, l5, l6, h.1.symm, h.2.symm⟩

theorem registerAgent_ok_elim {w : World} {sender : Principal}
    {name descriptionUrl : String} {pricePerTask : Nat} {acceptsStx acceptsSip010 : Bool}
    {p : Principal} {w' : World}
    (h : registerAgent w sender name descriptionUrl pricePerTask acceptsStx acceptsSip010 =
      .ok (p, w')) :
    w'.curves = w.curves ∧ w'.balances = w.balances ∧ w'.totalCurves = w.totalCurves ∧
      w'.defaultTotalSupply = w.defaultTotalSupply ∧
      w'.defaultVirtualStx = w.defaultVirtualStx ∧
      w'.defaultFeeBps = w.defaultFeeBps ∧
      w'.defaultCreatorShareBps = w.defaultCreatorShareBps := by
  by_cases r1 : (mapGet w.agents sender).isSome = true
  case pos =>
    simp only [registerAgent, if_pos r1] at h
    exact Except.noConfusion h
  by_cases r2 : name.length ≤ maxNameLen
  case neg =>
    simp only [registerAgent, if_neg r1, if_neg r2] at h
    exact Except.noConfusion h
  simp only [registerAgent, if_neg r1, if_pos r2, Except.ok.injEq, Prod.mk.injEq] at h
  rw [← h.2]
  exact ⟨rfl, rfl, rfl, rfl, rfl, rfl, rfl⟩

theorem setDefaults_ok_elim {w : World} {sender : Principal}
    {ts vs grad fee share : Nat} {b : Bool} {w' : World}
    (h : setDefaults w sender ts vs grad fee share = .ok (b, w')) :
    sender = w.lpAdmin ∧ 0 < ts ∧ 0 < vs ∧ 0 < grad ∧ fee ≤ maxFeeBps ∧
      share ≤ maxCreatorShareBps ∧
      w' = { w with defaultTotalSupply := ts, defaultVirtualStx := vs,
                    defaultGraduationStx := grad, defaultFeeBps := fee,
                    defaultCreatorShareBps := share } := by
  by_cases d1 : sender = w.lpAdmin
  case neg =>
    simp only [setDefaults, if_neg d1] at h
    exact Except.noConfusion h
  by_cases d2 : 0 < ts
  case neg =>
    simp only [setDefaults, if_pos d1, if_neg d2] at h
    exact Except.noConfusion h
  by_cases d3 : 0 < vs
  case neg =>
    simp only [setDefaults, if_pos d1, if_pos d2, if_neg d3] at h
    exact Except.noConfusion h
  by_cases d4 : 0 < grad
  case neg =>
    simp only [setDefaults, if_pos d1, if_pos d2, if_pos d3, if_neg d4] at h
    exact Except.noConfusion h
  by_cases d5 : fee ≤ maxFeeBps
  case neg =>
    simp only [setDefaults, if_pos d1, if_pos d2, if_pos d3, if_pos d4, if_neg d5] at h
    exact Except.noConfusion h
  by_cases d6 : share ≤ maxCreatorShareBps
  case neg =>
    simp only [setDefaults, if_pos d1, if_pos d2, if_pos d3, if_pos d4, if_pos d5,
      if_neg d6] at h
    exact Except.noConfusion h
  simp only [setDefaults, if_pos d1, if_pos d2, if_pos d3, if_pos d4, if_pos d5,
    if_pos d6, Except.ok.injEq, Prod.mk.injEq] at h
  exact ⟨d1, d2, d3, d4, d5, d6, h.2.symm⟩

theorem setProtocolFeeRecipient_ok_elim {w : World} {sender newRecipient : Principal}
    {p : Principal} {w' : World}
    (h : setProtocolFeeRecipient w sender newRecipient = .ok (p, w')) :
    sender = w.lpAdmin ∧ w' = { w with protocolFeeRecipient := newRecipient } := by
  by_cases d1 : sender = w.lpAdmin
  case neg =>
    simp only [setProtocolFeeRecipient, if_neg d1] at h
    exact Except.noConfusion h
  simp only [setProtocolFeeRecipient, if_pos d1, Except.ok.injEq, Prod.mk.injEq] at h
  exact ⟨d1, h.2.symm⟩

theorem payViaCurve_ok_elim {w : World} {sender : Principal}
    {curveId stxAmount nonce minTokensOut : Nat} {res : Nat × Nat} {w' : World}
    (h : payViaCurve w sender curveId stxAmount nonce minTokensOut = .ok (res, w')) :
    ∃ w1, (mapGet w.receipts nonce).isNone = true ∧ 0 < stxAmount ∧
      buy w sender curveId stxAmount minTokensOut = .ok (res, w1) ∧
      w' = payCore w1 sender curveId stxAmount nonce res := by
  by_cases p1 : (mapGet w.receipts nonce).isNone = true
  case neg =>
    simp only [payViaCurve, if_neg p1] at h
    exact Except.noConfusion h
  by_cases p2 : 0 < stxAmount
  case neg =>
    simp only [payViaCurve, if_pos p1, if_neg p2] at h
    exact Except.noConfusion h
  rcases hbuy : buy w sender curveId stxAmount minTokensOut with e | ⟨res1, w1⟩
  · simp only [payViaCurve, if_pos p1, if_pos p2, hbuy] at h
    exact Except.noConfusion h
  · simp only [payViaCurve, if_pos p1, if_pos p2, hbuy, Except.ok.injEq,
      Prod.mk.injEq] at h
    obtain ⟨hres, hw⟩ := h
    subst hres
    exact ⟨w1, p1, p2, rfl, hw.symm⟩

theorem payViaCurve_ok_intro {w : World} {sender : Principal}
    {curveId stxAmount nonce minTokensOut : Nat} {res : Nat × Nat} {w1 : World}
    (p1 : (mapGet w.receipts nonce).isNone = true) (p2 : 0 < stxAmount)
    (hbuy : buy w sender curveId stxAmount minTokensOut = .ok (res, w1)) :
    payViaCurve w sender curveId stxAmount nonce minTokensOut =
      .ok (res, payCore w1 sender curveId stxAmount nonce res) := by
  simp only [payViaCurve, if_pos p1, if_pos p2, hbuy]

/-! ### Preservation of the invariants -/

theorem buyCurve_ok {c : Curve} {amt : Nat} (hc : CurveOk c)
    (h4 : newTokenReserveBuy c amt ≤ tokenReserve c) :
    CurveOk (buyCurve c amt) := by
  obtain ⟨hS, hV, hF, hSh, hK, hsold, hlo, hhi⟩ := hc
  unfold tokenReserve at h4
  have hkey : c.totalSupply - (c.tokensSold + tokensOutBuy c amt) =
      newTokenReserveBuy c amt := by
    unfold tokensOutBuy tokenReserve
    omega
  have hposd : 0 < c.virtualStx + newStxReserveBuy c amt := by omega
  refine ⟨hS, hV, hF, hSh, hK, ?_, ?_, ?_⟩
  · simp only [buyCurve]
    unfold tokensOutBuy tokenReserve
    omega
  · simp only [buyCurve]
    rw [hkey]
    exact mulDivLe c.k (c.virtualStx + newStxReserveBuy c amt)
  · simp only [buyCurve]
    rw [hkey]
    have h1 := ltMulDivSucc c.k hposd
    calc c.k < (c.virtualStx + newStxReserveBuy c amt) *
          (newTokenReserveBuy c amt + 1) := h1
    _ ≤ (c.virtualStx + newStxReserveBuy c amt + 1) * (newTokenReserveBuy c amt + 1) :=
        Nat.mul_le_mul_right _ (Nat.le_succ _)

theorem sellCurve_ok {c : Curve} {amt : Nat} (hc : CurveOk c)
    (s2 : 0 < newTokenReserveSell c amt)
    (s3 : c.virtualStx ≤ c.k / newTokenReserveSell c amt)
    (s11 : amt ≤ c.tokensSold) :
    CurveOk (sellCurve c amt) := by
  obtain ⟨hS, hV, hF, hSh, hK, hsold, hlo, hhi⟩ := hc
  have hkey : c.totalSupply - (c.tokensSold - amt) = newTokenReserveSell c amt := by
    unfold newTokenReserveSell tokenReserve
    omega
  have hvr : c.virtualStx + newStxReserveSell c amt =
      c.k / newTokenReserveSell c amt := by
    unfold newStxReserveSell
    omega
  refine ⟨hS, hV, hF, hSh, hK, ?_, ?_, ?_⟩
  · simp only [sellCurve]
    omega
  · simp only [sellCurve]
    rw [hkey, hvr, Nat.mul_comm]
    exact mulDivLe c.k (newTokenReserveSell c amt)
  · simp only [sellCurve]
    rw [hkey, hvr]
    have h1 := ltMulDivSucc c.k s2
    calc c.k < newTokenReserveSell c amt * (c.k / newTokenReserveSell c amt + 1) := h1
    _ = (c.k / newTokenReserveSell c amt + 1) * newTokenReserveSell c amt := Nat.mul_comm _ _
    _ ≤ (c.k / newTokenReserveSell c amt + 1) * (newTokenReserveSell c amt + 1) :=
        Nat.mul_le_mul_left _ (Nat.le_succ _)

theorem curveEntryOk_of_get {w : World} {cid : Nat} {c : Curve}
    (hget : mapGet w.curves cid = some c)
    (h : cid < w.totalCurves ∧ CurveOk c ∧ sumBal w.balances cid = c.tokensSold) :
    CurveEntryOk w cid := by
  unfold CurveEntryOk
  simp only [hget]
  exact h

theorem curveEntryOk_of_none {w : World} {cid : Nat}
    (hget : mapGet w.curves cid = none) : CurveEntryOk w cid := by
  unfold CurveEntryOk
  simp only [hget]

theorem worldOk_buyCore {w : World} {sender : Principal} {cid amt : Nat} {curve : Curve}
    (hw : WorldOk w) (hget : mapGet w.curves cid = some curve)
    (h4 : newTokenReserveBuy curve amt ≤ tokenReserve curve) :
    WorldOk (buyCore w sender cid amt curve) := by
  obtain ⟨hlt, hc, hsum⟩ := worldOk_curve hw hget
  refine ⟨hw.1, hw.2.1, hw.2.2.1, hw.2.2.2.1, ?_, ?_⟩
  · intro p _
    by_cases hcid : p.1 = cid
    · rw [hcid]
      refine curveEntryOk_of_get (mapGet_buyCore_self w sender cid amt curve)
        ⟨hlt, buyCurve_ok hc h4, ?_⟩
      show sumBal (mapSet w.balances (cid, sender)
        ((mapGet w.balances (cid, sender)).getD 0 + tokensOutBuy curve amt)) cid =
        (buyCurve curve amt).tokensSold
      have hsm := sumBal_mapSet_same w.balances cid sender
        ((mapGet w.balances (cid, sender)).getD 0 + tokensOutBuy curve amt)
      simp only [buyCurve]
      omega
    · have hG : mapGet (buyCore w sender cid amt curve).curves p.1 =
          mapGet w.curves p.1 := by
        show mapGet (mapSet w.curves cid (buyCurve curve amt)) p.1 = _
        exact mapGet_mapSet_ne _ _ hcid
      rcases hget' : mapGet w.curves p.1 with _ | c'
      · exact curveEntryOk_of_none (hG.trans hget')
      · obtain ⟨hlt', hc', hsum'⟩ := worldOk_curve hw hget'
        refine curveEntryOk_of_get (hG.trans hget') ⟨hlt', hc', ?_⟩
        show sumBal (mapSet w.balances (cid, sender) _) p.1 = c'.tokensSold
        rw [sumBal_mapSet_other _ _ _ (fun hh => hcid hh.symm)]
        exact hsum'
  · intro b hb
    rcases mem_mapSet hb with hb' | hb'
    · rw [hb']
      exact hlt
    · exact hw.2.2.2.2.2 b hb'

theorem worldOk_sellCore {w : World} {sender : Principal} {cid amt : Nat}
    {curve : Curve} {sellerBal : Nat}
    (hw : WorldOk w) (hget : mapGet w.curves cid = some curve)
    (hbal : mapGet w.balances (cid, sender) = some sellerBal)
    (s2 : 0 < newTokenReserveSell curve amt)
    (s3 : curve.virtualStx ≤ curve.k / newTokenReserveSell curve amt)
    (s8 : amt ≤ sellerBal)
    (s11 : amt ≤ curve.tokensSold) :
    WorldOk (sellCore w sender cid amt curve sellerBal) := by
  obtain ⟨hlt, hc, hsum⟩ := worldOk_curve hw hget
  refine ⟨hw.1, hw.2.1, hw.2.2.1, hw.2.2.2.1, ?_, ?_⟩
  · intro p _
    by_cases hcid : p.1 = cid
    · rw [hcid]
      have hGs : mapGet (sellCore w sender cid amt curve sellerBal).curves cid =
          some (sellCurve curve amt) := by
        show mapGet (mapSet w.curves cid (sellCurve curve amt)) cid = _
        exact mapGet_mapSet_self _ _ _
      refine curveEntryOk_of_get hGs ⟨hlt, sellCurve_ok hc s2 s3 s11, ?_⟩
      show sumBal (mapSet w.balances (cid, sender) (sellerBal - amt)) cid =
        (sellCurve curve amt).tokensSold
      have hsm := sumBal_mapSet_same w.balances cid sender (sellerBal - amt)
      rw [hbal] at hsm
      simp only [Option.getD_some] at hsm
      simp only [sellCurve]
      omega
    · have hG : mapGet (sellCore w sender cid amt curve sellerBal).curves p.1 =
          mapGet w.curves p.1 := by
        show mapGet (mapSet w.curves cid (sellCurve curve amt)) p.1 = _
        exact mapGet_mapSet_ne _ _ hcid
      rcases hget' : mapGet w.curves p.1 with _ | c'
      · exact curveEntryOk_of_none (hG.trans hget')
      · obtain ⟨hlt', hc', hsum'⟩ := worldOk_curve hw hget'
        refine curveEntryOk_of_get (hG.trans hget') ⟨hlt', hc', ?_⟩
        show sumBal (mapSet w.balances (cid, sender) _) p.1 = c'.tokensSold
        rw [sumBal_mapSet_other _ _ _ (fun hh => hcid hh.symm)]
        exact hsum'
  · intro b hb
    rcases mem_mapSet hb with hb' | hb'
    · rw [hb']
      exact hlt
    · exact hw.2.2.2.2.2 b hb'

theorem worldOk_graduateCore {w : World} {cid : Nat} {curve : Curve}
    (hw : WorldOk w) (hget : mapGet w.curves cid = some curve) :
    WorldOk (graduateCore w cid curve) := by
  obtain ⟨hlt, hc, hsum⟩ := worldOk_curve hw hget
  refine ⟨hw.1, hw.2.1, hw.2.2.1, hw.2.2.2.1, ?_, ?_⟩
  · intro p _
    by_cases hcid : p.1 = cid
    · rw [hcid]
      have hGs : mapGet (graduateCore w cid curve).curves cid =
          some { curve with graduated := true, accruedFees := 0 } := by
        show mapGet (mapSet w.curves cid _) cid = _
        exact mapGet_mapSet_self _ _ _
      refine curveEntryOk_of_get hGs ⟨hlt, ⟨hc.1, hc.2.1, hc.2.2.1, hc.2.2.2.1,
        hc.2.2.2.2.1, hc.2.2.2.2.2.1, hc.2.2.2.2.2.2.1, hc.2.2.2.2.2.2.2⟩, hsum⟩
    · have hG : mapGet (graduateCore w cid curve).curves p.1 =
          mapGet w.curves p.1 := by
        show mapGet (mapSet w.curves cid _) p.1 = _
        exact mapGet_mapSet_ne _ _ hcid
      rcases hget' : mapGet w.curves p.1 with _ | c'
      · exact curveEntryOk_of_none (hG.trans hget')
      · obtain ⟨hlt', hc', hsum'⟩ := worldOk_curve hw hget'
        exact curveEntryOk_of_get (hG.trans hget') ⟨hlt', hc', hsum'⟩
  · intro b hb
    exact hw.2.2.2.2.2 b hb

theorem worldOk_transferCore {w : World} {sender : Principal} {cid amt : Nat}
    {recipient : Principal} {senderBal : Nat}
    (hw : WorldOk w) (hbal : mapGet w.balances (cid, sender) = some senderBal)
    (hcs : (mapGet w.curves cid).isSome = true)
    (hne : ¬ sender = recipient) (hle : amt ≤ senderBal) :
    WorldOk (transferCore w sender cid amt recipient senderBal) := by
  obtain ⟨c0, hget0⟩ := Option.isSome_iff_exists.mp hcs
  obtain ⟨hlt0, _, _⟩ := worldOk_curve hw hget0
  refine ⟨hw.1, hw.2.1, hw.2.2.1, hw.2.2.2.1, ?_, ?_⟩
  · intro p _
    have hGcur : mapGet (transferCore w sender cid amt recipient senderBal).curves p.1 =
        mapGet w.curves p.1 := rfl
    rcases hget' : mapGet w.curves p.1 with _ | c'
    · exact curveEntryOk_of_none (hGcur.trans hget')
    · obtain ⟨hlt', hc', hsum'⟩ := worldOk_curve hw hget'
      refine curveEntryOk_of_get (hGcur.trans hget') ⟨hlt', hc', ?_⟩
      show sumBal (mapSet (mapSet w.balances (cid, sender) (senderBal - amt))
        (cid, recipient) ((mapGet w.balances (cid, recipient)).getD 0 + amt)) p.1 =
        c'.tokensSold
      by_cases hcid : p.1 = cid
      · subst hcid
        have hs1 := sumBal_mapSet_same w.balances p.1 sender (senderBal - amt)
        rw [hbal] at hs1
        simp only [Option.getD_some] at hs1
        have hs2 := sumBal_mapSet_same (mapSet w.balances (p.1, sender) (senderBal - amt))
          p.1 recipient ((mapGet w.balances (p.1, recipient)).getD 0 + amt)
        have hGr : mapGet (mapSet w.balances (p.1, sender) (senderBal - amt))
            (p.1, recipient) = mapGet w.balances (p.1, recipient) := by
          refine mapGet_mapSet_ne _ _ ?_
          intro hh
          exact hne (congrArg Prod.snd hh).symm
        rw [hGr] at hs2
        omega
      · rw [sumBal_mapSet_other _ _ _ (fun hh => hcid hh.symm),
          sumBal_mapSet_other _ _ _ (fun hh => hcid hh.symm)]
        exact hsum'
  · intro b hb
    rcases mem_mapSet hb with hb' | hb'
    · rw [hb']
      exact hlt0
    · rcases mem_mapSet hb' with hb2 | hb2
      · rw [hb2]
        exact hlt0
      · exact hw.2.2.2.2.2 b hb2

theorem worldOk_launchCore {w : World} {sender : Principal} {name symbol : String}
    (hw : WorldOk w) (hts : 0 < w.defaultTotalSupply) (hvs : 0 < w.defaultVirtualStx) :
    WorldOk (launchCore w sender name symbol) := by
  refine ⟨hw.1, hw.2.1, hw.2.2.1, hw.2.2.2.1, ?_, ?_⟩
  · intro p _
    by_cases hcid : p.1 = w.totalCurves
    · rw [hcid]
      have hGs : mapGet (launchCore w sender name symbol).curves w.totalCurves =
          some (launchCurve w sender name symbol) := by
        show mapGet (mapSet w.curves w.totalCurves _) w.totalCurves = _
        exact mapGet_mapSet_self _ _ _
      refine curveEntryOk_of_get hGs ⟨Nat.lt_succ_self _, ?_, ?_⟩
      · refine ⟨hts, hvs, hw.2.2.1, hw.2.2.2.1, rfl, Nat.zero_le _, ?_, ?_⟩
        · show (w.defaultVirtualStx + 0) * (w.defaultTotalSupply - 0) ≤
            w.defaultVirtualStx * w.defaultTotalSupply
          simp
        · show w.defaultVirtualStx * w.defaultTotalSupply <
            (w.defaultVirtualStx + 0 + 1) * (w.defaultTotalSupply - 0 + 1)
          have hring : (w.defaultVirtualStx + 0 + 1) * (w.defaultTotalSupply - 0 + 1) =
              w.defaultVirtualStx * (w.defaultTotalSupply - 0) + w.defaultVirtualStx +
              (w.defaultTotalSupply - 0) + 1 := by ring
          have h0 : w.defaultTotalSupply - 0 = w.defaultTotalSupply := by omega
          rw [hring, h0]
          omega
      · show sumBal w.balances w.totalCurves = (launchCurve w sender name symbol).tokensSold
        have hz : sumBal w.balances w.totalCurves = 0 := by
          refine sumBal_eq_zero ?_
          intro b hb
          have := hw.2.2.2.2.2 b hb
          omega
        rw [hz]
        rfl
    · have hG : mapGet (launchCore w sender name symbol).curves p.1 =
          mapGet w.curves p.1 := by
        show mapGet (mapSet w.curves w.totalCurves _) p.1 = _
        exact mapGet_mapSet_ne _ _ hcid
      rcases hget' : mapGet w.curves p.1 with _ | c'
      · exact curveEntryOk_of_none (hG.trans hget')
      · obtain ⟨hlt', hc', hsum'⟩ := worldOk_curve hw hget'
        refine curveEntryOk_of_get (hG.trans hget') ⟨?_, hc', hsum'⟩
        show p.1 < w.totalCurves + 1
        omega
  · intro b hb
    have := hw.2.2.2.2.2 b hb
    show b.1.1 < w.totalCurves + 1
    omega

theorem except_map_snd_ok {α : Type} {e : Except CErr (α × World)} {w' : World}
    (h : e.map (·.2) = .ok w') : ∃ r, e = .ok (r, w') := by
  cases e with
  | error e =>
    simp [Except.map] at h
  | ok p =>
    cases p with
    | mk r w1 =>
      simp only [Except.map, Except.ok.injEq] at h
      exact ⟨r, by rw [h]⟩

theorem graduate_ok_elim {w : World} {cid : Nat} {b : Bool} {w' : World}
    (h : graduate w cid = .ok (b, w')) :
    graduateInternal w cid = .ok (true, w') := by
  rcases hgi : graduateInternal w cid with e | ⟨bb, w4⟩
  · simp only [graduate, hgi] at h
    exact Except.noConfusion h
  · obtain ⟨c, _, _, _, _, hbb, _⟩ := graduateInternal_ok_elim hgi
    subst hbb
    simp only [graduate, hgi, Except.ok.injEq, Prod.mk.injEq] at h
    rw [← h.2]

theorem worldOk_of_eq_fields {w w' : World} (hw : WorldOk w)
    (hcur : w'.curves = w.curves) (hbal : w'.balances = w.balances)
    (htc : w'.totalCurves = w.totalCurves)
    (h1 : w'.defaultTotalSupply = w.defaultTotalSupply)
    (h2 : w'.defaultVirtualStx = w.defaultVirtualStx)
    (h3 : w'.defaultFeeBps = w.defaultFeeBps)
    (h4 : w'.defaultCreatorShareBps = w.defaultCreatorShareBps) : WorldOk w' := by
  unfold WorldOk CurveEntryOk at hw ⊢
  rw [hcur, hbal, htc, h1, h2, h3, h4]
  exact hw

theorem buy_preserves {w : World} {sender : Principal} {cid amt minOut : Nat}
    {res : Nat × Nat} {w' : World}
    (hw : WorldOk w) (h : buy w sender cid amt minOut = .ok (res, w')) : WorldOk w' := by
  obtain ⟨curve, hget, h1, h2, h3, h4, h5, h6, h7, h8, h9, hres, hdich⟩ := buy_ok_elim h
  have hwc := @worldOk_buyCore w sender cid amt curve hw hget h4
  rcases hdich with ⟨h10, hw'⟩ | ⟨h10, hgi⟩
  · rw [hw']
    exact hwc
  · obtain ⟨c2, hget2, _, _, _, _, hcore⟩ := graduateInternal_ok_elim hgi
    rw [hcore]
    exact worldOk_graduateCore hwc hget2

theorem sell_preserves {w : World} {sender : Principal} {cid amt minOut : Nat}
    {res : Nat × Nat} {w' : World}
    (hw : WorldOk w) (h : sell w sender cid amt minOut = .ok (res, w')) : WorldOk w' := by
  obtain ⟨curve, sellerBal, hget, hbal, s1, s3, s4, s5, s6, s7, s8, s9, s10, s11,
    hres, hw'⟩ := sell_ok_elim h
  rw [hw']
  refine worldOk_sellCore hw hget hbal ?_ s3 s8 s11
  unfold newTokenReserveSell
  omega

theorem step_preserves {w : World} {op : Op} {w' : World}
    (hw : WorldOk w) (h : step w op = .ok w') : WorldOk w' := by
  cases op with
  | registerAgent s n d p a b =>
    obtain ⟨r, hr⟩ := except_map_snd_ok h
    obtain ⟨hcur, hbal, htc, h1, h2, h3, h4⟩ := registerAgent_ok_elim hr
    exact worldOk_of_eq_fields hw hcur hbal htc h1 h2 h3 h4
  | launch s n sy =>
    obtain ⟨r, hr⟩ := except_map_snd_ok h
    obtain ⟨_, _, _, _, l5, l6, _, hw'⟩ := launch_ok_elim hr
    rw [hw']
    exact worldOk_launchCore hw l5 l6
  | buy s cid amt minOut =>
    obtain ⟨r, hr⟩ := except_map_snd_ok h
    exact buy_preserves hw hr
  | sell s cid amt minOut =>
    obtain ⟨r, hr⟩ := except_map_snd_ok h
    exact sell_preserves hw hr
  | transfer s cid amt rcp =>
    obtain ⟨r, hr⟩ := except_map_snd_ok h
    obtain ⟨senderBal, hbal, t1, t2, t3, t4, _, hw'⟩ := transfer_ok_elim hr
    rw [hw']
    exact worldOk_transferCore hw hbal t1 t3 t4
  | graduate s cid =>
    obtain ⟨r, hr⟩ := except_map_snd_ok h
    have hgi := graduate_ok_elim hr
    obtain ⟨curve, hget, _, _, _, _, hcore⟩ := graduateInternal_ok_elim hgi
    rw [hcore]
    exact worldOk_graduateCore hw hget
  | setDefaults s ts vs grad fee share =>
    obtain ⟨r, hr⟩ := except_map_snd_ok h
    obtain ⟨_, d2, d3, _, d5, d6, hw'⟩ := setDefaults_ok_elim hr
    rw [hw']
    refine ⟨d2, d3, d5, d6, ?_, ?_⟩
    · intro p hp
      exact hw.2.2.2.2.1 p hp
    · intro b hb
      exact hw.2.2.2.2.2 b hb
  | setProtocolFeeRecipient s rcp =>
    obtain ⟨r, hr⟩ := except_map_snd_ok h
    obtain ⟨_, hw'⟩ := setProtocolFeeRecipient_ok_elim hr
    rw [hw']
    exact worldOk_of_eq_fields hw rfl rfl rfl rfl rfl rfl rfl
  | payViaCurve s cid amt nonce minOut =>
    obtain ⟨r, hr⟩ := except_map_snd_ok h
    obtain ⟨w1, _, _, hbuy, hw'⟩ := payViaCurve_ok_elim hr
    rw [hw']
    have hw1 := buy_preserves hw hbuy
    exact worldOk_of_eq_fields hw1 rfl rfl rfl rfl rfl rfl rfl
  | advanceBlock =>
    simp only [step, Except.ok.injEq] at h
    rw [← h]
    exact worldOk_of_eq_fields hw rfl rfl rfl rfl rfl rfl rfl

theorem reachable_worldOk {w : World} (h : Reachable w) : WorldOk w := by
  induction h with
  | init deployer => exact worldOk_initWorld deployer
  | next op _ hstep ih => exact step_preserves ih hstep

/-! ### Persistence of curve parameters across operations -/

/-- Fields of a stored curve that are kept by one `graduate-internal`. -/
theorem graduateCore_get {w : World} {cid cid' : Nat} {curve c : Curve}
    (hget : mapGet w.curves cid' = some c) :
    mapGet (graduateCore w cid curve).curves cid' =
      if cid' = cid then some { curve with graduated := true, accruedFees := 0 }
      else some c := by
  by_cases hcid : cid' = cid
  · subst hcid
    simp only [if_pos rfl]
    show mapGet (mapSet w.curves cid' _) cid' = _
    exact mapGet_mapSet_self _ _ _
  · rw [if_neg hcid]
    rw [show mapGet (graduateCore w cid curve).curves cid' = mapGet w.curves cid' from
      mapGet_mapSet_ne _ _ hcid]
    exact hget

theorem buy_curve_persist {w : World} {sender : Principal} {cid0 amt minOut : Nat}
    {res : Nat × Nat} {w' : World} {cid : Nat} {c : Curve}
    (h : buy w sender cid0 amt minOut = .ok (res, w'))
    (hget : mapGet w.curves cid = some c) :
    ∃ c', mapGet w'.curves cid = some c' ∧ c'.k = c.k ∧
      c'.totalSupply = c.totalSupply ∧ c'.virtualStx = c.virtualStx ∧
      c'.graduationStx = c.graduationStx ∧ c'.creatorShareBps = c.creatorShareBps ∧
      c'.creator = c.creator ∧ (c.graduated = true → c'.graduated = true) := by
  obtain ⟨curve, hget0, _, _, _, _, h5, _, _, _, _, _, hdich⟩ := buy_ok_elim h
  have hCore : mapGet (buyCore w sender cid0 amt curve).curves cid =
      if cid = cid0 then some (buyCurve curve amt) else some c := by
    by_cases hcid : cid = cid0
    · subst hcid
      rw [if_pos rfl]
      exact mapGet_buyCore_self w sender cid amt curve
    · rw [if_neg hcid]
      rw [show mapGet (buyCore w sender cid0 amt curve).curves cid =
        mapGet w.curves cid from mapGet_mapSet_ne _ _ hcid]
      exact hget
  have hceq : cid = cid0 → c = curve := by
    intro hcid
    subst hcid
    rw [hget0] at hget
    exact (Option.some.injEq _ _ ▸ hget).symm
  rcases hdich with ⟨_, hw'⟩ | ⟨_, hgi⟩
  · subst hw'
    by_cases hcid : cid = cid0
    · refine ⟨buyCurve curve amt, by rw [hCore, if_pos hcid], ?_⟩
      rw [hceq hcid]
      exact ⟨rfl, rfl, rfl, rfl, rfl, rfl, fun hg => hg⟩
    · exact ⟨c, by rw [hCore, if_neg hcid], rfl, rfl, rfl, rfl, rfl, rfl, fun hg => hg⟩
  · obtain ⟨c2, hget2, _, _, _, _, hcore⟩ := graduateInternal_ok_elim hgi
    subst hcore
    have hg2 : c2 = buyCurve curve amt := by
      rw [mapGet_buyCore_self w sender cid0 amt curve] at hget2
      exact (Option.some.injEq _ _ ▸ hget2).symm
    subst hg2
    by_cases hcid : cid = cid0
    · refine ⟨{ buyCurve curve amt with graduated := true, accruedFees := 0 }, ?_, ?_⟩
      · rw [graduateCore_get (by rw [hCore, if_pos hcid]), if_pos hcid]
      · rw [hceq hcid]
        exact ⟨rfl, rfl, rfl, rfl, rfl, rfl, fun _ => rfl⟩
    · refine ⟨c, ?_, rfl, rfl, rfl, rfl, rfl, rfl, fun hg => hg⟩
      rw [graduateCore_get (by rw [hCore, if_neg hcid]), if_neg hcid]

theorem step_curve_persist {w : World} {op : Op} {w' : World} {cid : Nat} {c : Curve}
    (hlt : cid < w.totalCurves)
    (h : step w op = .ok w') (hget : mapGet w.curves cid = some c) :
    ∃ c', mapGet w'.curves cid = some c' ∧ c'.k = c.k ∧
      c'.totalSupply = c.totalSupply ∧ c'.virtualStx = c.virtualStx ∧
      c'.graduationStx = c.graduationStx ∧ c'.creatorShareBps = c.creatorShareBps ∧
      c'.creator = c.creator ∧ (c.graduated = true → c'.graduated = true) := by
  cases op with
  | registerAgent s n d p a b =>
    obtain ⟨r, hr⟩ := except_map_snd_ok h
    obtain ⟨hcur, _, _, _, _, _, _⟩ := registerAgent_ok_elim hr
    exact ⟨c, by rw [hcur]; exact hget, rfl, rfl, rfl, rfl, rfl, rfl, fun hg => hg⟩
  | launch s n sy =>
    obtain ⟨r, hr⟩ := except_map_snd_ok h
    obtain ⟨_, _, _, _, _, _, _, hw'⟩ := launch_ok_elim hr
    subst hw'
    refine ⟨c, ?_, rfl, rfl, rfl, rfl, rfl, rfl, fun hg => hg⟩
    rw [show mapGet (launchCore w s n sy).curves cid = mapGet
      (mapSet w.curves w.totalCurves (launchCurve w s n sy)) cid from rfl]
    rw [mapGet_mapSet_ne _ _ (by omega)]
    exact hget
  | buy s cid0 amt minOut =>
    obtain ⟨r, hr⟩ := except_map_snd_ok h
    exact buy_curve_persist hr hget
  | sell s cid0 amt minOut =>
    obtain ⟨r, hr⟩ := except_map_snd_ok h
    obtain ⟨curve, sellerBal, hget0, _, _, _, _, _, _, _, _, _, _, _, _, hw'⟩ :=
      sell_ok_elim hr
    subst hw'
    by_cases hcid : cid = cid0
    · subst hcid
      rw [hget0] at hget
      have hceq : c = curve := (Option.some.injEq _ _ ▸ hget).symm
      subst hceq
      refine ⟨sellCurve c amt, ?_, rfl, rfl, rfl, rfl, rfl, rfl, fun hg => hg⟩
      show mapGet (mapSet w.curves cid (sellCurve c amt)) cid = _
      exact mapGet_mapSet_self _ _ _
    · refine ⟨c, ?_, rfl, rfl, rfl, rfl, rfl, rfl, fun hg => hg⟩
      show mapGet (mapSet w.curves cid0 (sellCurve curve amt)) cid = _
      rw [mapGet_mapSet_ne _ _ hcid]
      exact hget
  | transfer s cid0 amt rcp =>
    obtain ⟨r, hr⟩ := except_map_snd_ok h
    obtain ⟨senderBal, _, _, _, _, _, _, hw'⟩ := transfer_ok_elim hr
    subst hw'
    exact ⟨c, hget, rfl, rfl, rfl, rfl, rfl, rfl, fun hg => hg⟩
  | graduate s cid0 =>
    obtain ⟨r, hr⟩ := except_map_snd_ok h
    have hgi := graduate_ok_elim hr
    obtain ⟨curve, hget0, _, _, _, _, hcore⟩ := graduateInternal_ok_elim hgi
    subst hcore
    by_cases hcid : cid = cid0
    · subst hcid
      rw [hget0] at hget
      have hceq : c = curve := (Option.some.injEq _ _ ▸ hget).symm
      subst hceq
      refine ⟨{ c with graduated := true, accruedFees := 0 }, ?_, rfl, rfl, rfl,
        rfl, rfl, rfl, fun _ => rfl⟩
      rw [graduateCore_get hget0, if_pos rfl]
    · refine ⟨c, ?_, rfl, rfl, rfl, rfl, rfl, rfl, fun hg => hg⟩
      rw [graduateCore_get hget, if_neg hcid]
  | setDefaults s ts vs grad fee share =>
    obtain ⟨r, hr⟩ := except_map_snd_ok h
    obtain ⟨_, _, _, _, _, _, hw'⟩ := setDefaults_ok_elim hr
    subst hw'
    exact ⟨c, hget, rfl, rfl, rfl, rfl, rfl, rfl, fun hg => hg⟩
  | setProtocolFeeRecipient s rcp =>
    obtain ⟨r, hr⟩ := except_map_snd_ok h
    obtain ⟨_, hw'⟩ := setProtocolFeeRecipient_ok_elim hr
    subst hw'
    exact ⟨c, hget, rfl, rfl, rfl, rfl, rfl, rfl, fun hg => hg⟩
  | payViaCurve s cid0 amt nonce minOut =>
    obtain ⟨r, hr⟩ := except_map_snd_ok h
    obtain ⟨w1, _, _, hbuy, hw'⟩ := payViaCurve_ok_elim hr
    subst hw'
    obtain ⟨c', hget', hrest⟩ := buy_curve_persist hbuy hget
    exact ⟨c', hget', hrest⟩
  | advanceBlock =>
    simp only [step, Except.ok.injEq] at h
    rw [← h]
    exact ⟨c, hget, rfl, rfl, rfl, rfl, rfl, rfl, fun hg => hg⟩

/-! ### Discriminated failure: positive-amount calls never abort -/

theorem tradeFee_le {c : Curve} (hF : c.feeBps ≤ maxFeeBps) (amt : Nat) :
    tradeFee c amt ≤ amt :=
  feeLe (le_trans hF (by norm_num [maxFeeBps, bpsDenom]))

theorem buy_reserve_le {c : Curve} (hc : CurveOk c) {amt : Nat} (hamt : 0 < amt) :
    newTokenReserveBuy c amt ≤ tokenReserve c := by
  obtain ⟨hS, hV, hF, hSh, hK, hsold, hlo, hhi⟩ := hc
  have hfee : tradeFee c amt < amt := feeLtOfPos hF hamt
  have h1 : c.virtualStx + c.stxReserve + 1 ≤ c.virtualStx + newStxReserveBuy c amt := by
    unfold newStxReserveBuy netStx
    omega
  have h2 : newTokenReserveBuy c amt ≤ c.k / (c.virtualStx + c.stxReserve + 1) := by
    unfold newTokenReserveBuy
    exact divAntitone c.k (by omega) h1
  have h3 : c.k / (c.virtualStx + c.stxReserve + 1) < tokenReserve c + 1 := by
    apply divLtOfLtMul
    unfold tokenReserve
    omega
  omega

theorem sell_virtual_le {c : Curve} (hc : CurveOk c)
    (hpos : 0 < newTokenReserveSell c amt)
    (hle : newTokenReserveSell c amt ≤ c.totalSupply) :
    c.virtualStx ≤ c.k / newTokenReserveSell c amt := by
  obtain ⟨hS, hV, hF, hSh, hK, hsold, hlo, hhi⟩ := hc
  have h1 : c.k / c.totalSupply ≤ c.k / newTokenReserveSell c amt :=
    divAntitone c.k hpos hle
  have h2 : c.k / c.totalSupply = c.virtualStx := by
    rw [hK]
    exact Nat.mul_div_cancel _ hS
  omega

theorem sell_newStx_le {c : Curve} (hc : CurveOk c) {amt : Nat} (hamt : 0 < amt) :
    newStxReserveSell c amt ≤ c.stxReserve := by
  obtain ⟨hS, hV, hF, hSh, hK, hsold, hlo, hhi⟩ := hc
  have h1 : c.k < (c.virtualStx + c.stxReserve + 1) * newTokenReserveSell c amt := by
    calc c.k < (c.virtualStx + c.stxReserve + 1) * (tokenReserve c + 1) := by
          unfold tokenReserve
          exact hhi
    _ ≤ (c.virtualStx + c.stxReserve + 1) * newTokenReserveSell c amt := by
          apply Nat.mul_le_mul_left
          unfold newTokenReserveSell
          omega
  have h2 : c.k / newTokenReserveSell c amt < c.virtualStx + c.stxReserve + 1 := by
    apply divLtOfLtMul
    calc c.k < (c.virtualStx + c.stxReserve + 1) * newTokenReserveSell c amt := h1
    _ = newTokenReserveSell c amt * (c.virtualStx + c.stxReserve + 1) := Nat.mul_comm _ _
  unfold newStxReserveSell
  omega

theorem buy_ok_or_code (w : World) (sender : Principal) (cid amt minOut : Nat)
    (hw : WorldOk w) (hamt : 0 < amt) :
    (∃ r w', buy w sender cid amt minOut = .ok (r, w')) ∨
    (∃ n, buy w sender cid amt minOut = .error (.code n)) := by
  rcases hget : mapGet w.curves cid with _ | curve
  · right
    refine ⟨1402, ?_⟩
    simp only [buy, hget]
    rfl
  obtain ⟨_, hc, _⟩ := worldOk_curve hw hget
  have h1 : tradeFee curve amt ≤ amt := tradeFee_le hc.2.2.1 amt
  have h2 : curve.tokensSold ≤ curve.totalSupply := hc.2.2.2.2.2.1
  have h3 : 0 < curve.virtualStx + newStxReserveBuy curve amt := by
    have := hc.2.1
    omega
  have h4 : newTokenReserveBuy curve amt ≤ tokenReserve curve := buy_reserve_le hc hamt
  cases h5 : curve.graduated with
  | true =>
    right
    refine ⟨1403, ?_⟩
    simp only [buy, hget, if_pos h1, if_pos h2, if_pos h3, if_pos h4, h5,
      eq_self_iff_true, if_true]
    rfl
  | false =>
  by_cases h7 : 0 < tokenReserve curve
  case neg =>
    right
    refine ⟨1413, ?_⟩
    simp only [buy, hget, if_pos h1, if_pos h2, if_pos h3, if_pos h4,
      if_neg (show ¬(curve.graduated = true) by simp [h5]), if_pos hamt, if_neg h7]
    rfl
  by_cases h8 : 0 < tokensOutBuy curve amt
  case neg =>
    right
    refine ⟨1408, ?_⟩
    simp only [buy, hget, if_pos h1, if_pos h2, if_pos h3, if_pos h4,
      if_neg (show ¬(curve.graduated = true) by simp [h5]), if_pos hamt, if_pos h7,
      if_neg h8]
    rfl
  by_cases h9 : minOut ≤ tokensOutBuy curve amt
  case neg =>
    right
    refine ⟨1406, ?_⟩
    simp only [buy, hget, if_pos h1, if_pos h2, if_pos h3, if_pos h4,
      if_neg (show ¬(curve.graduated = true) by simp [h5]), if_pos hamt, if_pos h7,
      if_pos h8, if_neg h9]
    rfl
  by_cases h10 : curve.graduationStx ≤ newStxReserveBuy curve amt
  · left
    have hsh : creatorShareOf (buyCurve curve amt) ≤ (buyCurve curve amt).accruedFees :=
      feeLe (le_trans hc.2.2.2.1 (le_refl _))
    exact ⟨_, _, buy_ok_intro_grad hget h1 h2 h3 h4 h5 hamt h7 h8 h9 h10 hsh⟩
  · left
    exact ⟨_, _, buy_ok_intro_plain hget h1 h2 h3 h4 h5 hamt h7 h8 h9 h10⟩

theorem sell_ok_or_code (w : World) (sender : Principal) (cid amt minOut : Nat)
    (hw : WorldOk w) (hamt : 0 < amt)
    (hbal : amt ≤ (mapGet w.balances (cid, sender)).getD 0) :
    (∃ r w', sell w sender cid amt minOut = .ok (r, w')) ∨
    (∃ n, sell w sender cid amt minOut = .error (.code n)) := by
  rcases hget : mapGet w.curves cid with _ | curve
  · right
    refine ⟨1402, ?_⟩
    simp only [sell, hget]
    rfl
  rcases hbg : mapGet w.balances (cid, sender) with _ | sellerBal
  · rw [hbg] at hbal
    simp only [Option.getD_none] at hbal
    omega
  rw [hbg] at hbal
  simp only [Option.getD_some] at hbal
  obtain ⟨_, hc, hsum⟩ := worldOk_curve hw hget
  have s1 : curve.tokensSold ≤ curve.totalSupply := hc.2.2.2.2.2.1
  have s2 : 0 < newTokenReserveSell curve amt := by
    unfold newTokenReserveSell
    omega
  have s11 : amt ≤ curve.tokensSold := by
    have hle := mapGet_le_sumBal hbg
    omega
  have hles : newTokenReserveSell curve amt ≤ curve.totalSupply := by
    unfold newTokenReserveSell tokenReserve
    omega
  have s3 : curve.virtualStx ≤ curve.k / newTokenReserveSell curve amt :=
    sell_virtual_le hc s2 hles
  have s4 : newStxReserveSell curve amt ≤ curve.stxReserve := sell_newStx_le hc hamt
  have s5 : tradeFee curve (grossStxSell curve amt) ≤ grossStxSell curve amt :=
    tradeFee_le hc.2.2.1 _
  cases s6 : curve.graduated with
  | true =>
    right
    refine ⟨1403, ?_⟩
    simp only [sell, hget, hbg, if_pos s1, if_pos s2, if_pos s3, if_pos s4, if_pos s5,
      s6, eq_self_iff_true, if_true]
    rfl
  | false =>
  by_cases s9 : 0 < stxOutSell curve amt
  case neg =>
    right
    refine ⟨1408, ?_⟩
    simp only [sell, hget, hbg, if_pos s1, if_pos s2, if_pos s3, if_pos s4, if_pos s5,
      if_neg (show ¬(curve.graduated = true) by simp [s6]), if_pos hamt, if_pos hbal,
      if_neg s9]
    rfl
  by_cases s10 : minOut ≤ stxOutSell curve amt
  case neg =>
    right
    refine ⟨1406, ?_⟩
    simp only [sell, hget, hbg, if_pos s1, if_pos s2, if_pos s3, if_pos s4, if_pos s5,
      if_neg (show ¬(curve.graduated = true) by simp [s6]), if_pos hamt, if_pos hbal,
      if_pos s9, if_neg s10]
    rfl
  left
  exact ⟨_, _, sell_ok_intro hget hbg s1 s2 s3 s4 s5 s6 hamt hbal s9 s10 s11⟩

/-- Amount discipline under which no runtime abort is possible: positive
buy amounts, and sell amounts within the caller's recorded balance. -/
def SafeAmounts (w : World) : Op → Prop
  | .buy _ _ amt _ => 0 < amt
  | .sell s cid amt _ => 0 < amt ∧ amt ≤ (mapGet w.balances (cid, s)).getD 0
  | _ => True

theorem runOp_error {w : World} {op : Op} {e : CErr}
    (h : step w op = .error e) : runOp w op = w := by
  simp [runOp, h]

theorem step_ok_or_code (w : World) (op : Op) (hw : WorldOk w)
    (hsafe : SafeAmounts w op) :
    (∃ w', step w op = .ok w') ∨ (∃ n, step w op = .error (.code n)) := by
  cases op with
  | registerAgent s n d p a b =>
    by_cases r1 : (mapGet w.agents s).isSome = true
    case pos =>
      right
      refine ⟨1000, ?_⟩
      simp only [step, registerAgent, if_pos r1, Except.map]
      rfl
    by_cases r2 : n.length ≤ maxNameLen
    case neg =>
      right
      refine ⟨1003, ?_⟩
      simp only [step, registerAgent, if_neg r1, if_neg r2, Except.map]
      rfl
    left
    rcases hres : registerAgent w s n d p a b with er | rw1
    · simp only [registerAgent, if_neg r1, if_pos r2] at hres
      exact Except.noConfusion hres
    · refine ⟨rw1.2, ?_⟩
      simp only [step]
      rw [hres]
      rfl
  | launch s n sy =>
    by_cases l1 : isRegistered w s = true
    case neg =>
      right
      refine ⟨1400, ?_⟩
      simp only [step, launch, if_neg l1, Except.map]
      rfl
    cases l2 : mapGet w.agentCurve s with
    | some e =>
      right
      refine ⟨1401, ?_⟩
      simp only [step, launch, if_pos l1, l2, Option.isSome_some, eq_self_iff_true,
        if_true, Except.map]
      rfl
    | none =>
    by_cases l3 : 0 < n.length
    case neg =>
      right
      refine ⟨1411, ?_⟩
      simp only [step, launch, if_pos l1, l2, Option.isSome_none, Bool.false_eq_true,
        if_false, if_neg l3, Except.map]
      rfl
    by_cases l4 : 0 < sy.length
    case neg =>
      right
      refine ⟨1411, ?_⟩
      simp only [step, launch, if_pos l1, l2, Option.isSome_none, Bool.false_eq_true,
        if_false, if_pos l3, if_neg l4, Except.map]
      rfl
    by_cases l5 : 0 < w.defaultTotalSupply
    case neg =>
      right
      refine ⟨1411, ?_⟩
      simp only [step, launch, if_pos l1, l2, Option.isSome_none, Bool.false_eq_true,
        if_false, if_pos l3, if_pos l4, if_neg l5, Except.map]
      rfl
    by_cases l6 : 0 < w.defaultVirtualStx
    case neg =>
      right
      refine ⟨1411, ?_⟩
      simp only [step, launch, if_pos l1, l2, Option.isSome_none, Bool.false_eq_true,
        if_false, if_pos l3, if_pos l4, if_pos l5, if_neg l6, Except.map]
      rfl
    left
    rcases hres : launch w s n sy with er | rw1
    · simp only [launch, if_pos l1, l2, Option.isSome_none, Bool.false_eq_true,
        if_false, if_pos l3, if_pos l4, if_pos l5, if_pos l6] at hres
      exact Except.noConfusion hres
    · refine ⟨rw1.2, ?_⟩
      simp only [step]
      rw [hres]
      rfl
  | buy s cid0 amt minOut =>
    rcases buy_ok_or_code w s cid0 amt minOut hw hsafe with ⟨r, w1, hok⟩ | ⟨nn, herr⟩
    · left
      refine ⟨w1, ?_⟩
      simp only [step, hok, Except.map]
    · right
      refine ⟨nn, ?_⟩
      simp only [step, herr, Except.map]
  | sell s cid0 amt minOut =>
    rcases sell_ok_or_code w s cid0 amt minOut hw hsafe.1 hsafe.2 with
      ⟨r, w1, hok⟩ | ⟨nn, herr⟩
    · left
      refine ⟨w1, ?_⟩
      simp only [step, hok, Except.map]
    · right
      refine ⟨nn, ?_⟩
      simp only [step, herr, Except.map]
  | transfer s cid0 amt rcp =>
    rcases hbg : mapGet w.balances (cid0, s) with _ | sbal
    · right
      refine ⟨1405, ?_⟩
      simp only [step, transfer, hbg, Except.map]
      rfl
    by_cases t1 : (mapGet w.curves cid0).isSome = true
    case neg =>
      right
      refine ⟨1402, ?_⟩
      simp only [step, transfer, hbg, if_neg t1, Except.map]
      rfl
    by_cases t2 : 0 < amt
    case neg =>
      right
      refine ⟨1404, ?_⟩
      simp only [step, transfer, hbg, if_pos t1, if_neg t2, Except.map]
      rfl
    by_cases t3 : s = rcp
    case pos =>
      right
      refine ⟨1409, ?_⟩
      simp only [step, transfer, hbg, if_pos t1, if_pos t2, if_pos t3, Except.map]
      rfl
    by_cases t4 : amt ≤ sbal
    case neg =>
      right
      refine ⟨1405, ?_⟩
      simp only [step, transfer, hbg, if_pos t1, if_pos t2, if_neg t3, if_neg t4,
        Except.map]
      rfl
    left
    rcases hres : transfer w s cid0 amt rcp with er | rw1
    · simp only [transfer, hbg, if_pos t1, if_pos t2, if_neg t3, if_pos t4] at hres
      exact Except.noConfusion hres
    · refine ⟨rw1.2, ?_⟩
      simp only [step]
      rw [hres]
      rfl
  | graduate s cid0 =>
    rcases hget : mapGet w.curves cid0 with _ | curve
    · right
      refine ⟨1402, ?_⟩
      simp only [step, graduate, graduateInternal, hget, Except.map]
      rfl
    obtain ⟨_, hc, _⟩ := worldOk_curve hw hget
    have hA : creatorShareOf curve ≤ curve.accruedFees :=
      feeLe (le_trans hc.2.2.2.1 (le_refl _))
    by_cases hB : curve.graduationStx ≤ curve.stxReserve
    case neg =>
      right
      refine ⟨1412, ?_⟩
      simp only [step, graduate, graduateInternal, hget, if_pos hA, if_neg hB,
        Except.map]
      rfl
    cases hC : curve.graduated with
    | true =>
      right
      refine ⟨1403, ?_⟩
      simp only [step, graduate, graduateInternal, hget, if_pos hA, if_pos hB, hC,
        eq_self_iff_true, if_true, Except.map]
      rfl
    | false =>
      left
      have hok := graduateInternal_ok_intro hget hA hB hC
      refine ⟨graduateCore w cid0 curve, ?_⟩
      simp only [step, graduate, hok, Except.map]
  | setDefaults s ts vs grad fee share =>
    by_cases d1 : s = w.lpAdmin
    case neg =>
      right
      refine ⟨1407, ?_⟩
      simp only [step, setDefaults, if_neg d1, Except.map]
      rfl
    by_cases d2 : 0 < ts
    case neg =>
      right
      refine ⟨1411, ?_⟩
      simp only [step, setDefaults, if_pos d1, if_neg d2, Except.map]
      rfl
    by_cases d3 : 0 < vs
    case neg =>
      right
      refine ⟨1411, ?_⟩
      simp only [step, setDefaults, if_pos d1, if_pos d2, if_neg d3, Except.map]
      rfl
    by_cases d4 : 0 < grad
    case neg =>
      right
      refine ⟨1411, ?_⟩
      simp only [step, setDefaults, if_pos d1, if_pos d2, if_pos d3, if_neg d4,
        Except.map]
      rfl
    by_cases d5 : fee ≤ maxFeeBps
    case neg =>
      right
      refine ⟨1414, ?_⟩
      simp only [step, setDefaults, if_pos d1, if_pos d2, if_pos d3, if_pos d4,
        if_neg d5, Except.map]
      rfl
    by_cases d6 : share ≤ maxCreatorShareBps
    case neg =>
      right
      refine ⟨1411, ?_⟩
      simp only [step, setDefaults, if_pos d1, if_pos d2, if_pos d3, if_pos d4,
        if_pos d5, if_neg d6, Except.map]
      rfl
    left
    rcases hres : setDefaults w s ts vs grad fee share with er | rw1
    · simp only [setDefaults, if_pos d1, if_pos d2, if_pos d3, if_pos d4, if_pos d5,
        if_pos d6] at hres
      exact Except.noConfusion hres
    · refine ⟨rw1.2, ?_⟩
      simp only [step]
      rw [hres]
      rfl
  | setProtocolFeeRecipient s rcp =>
    by_cases d1 : s = w.lpAdmin
    case neg =>
      right
      refine ⟨1407, ?_⟩
      simp only [step, setProtocolFeeRecipient, if_neg d1, Except.map]
      rfl
    left
    rcases hres : setProtocolFeeRecipient w s rcp with er | rw1
    · simp only [setProtocolFeeRecipient, if_pos d1] at hres
      exact Except.noConfusion hres
    · refine ⟨rw1.2, ?_⟩
      simp only [step]
      rw [hres]
      rfl
  | payViaCurve s cid0 amt nonce minOut =>
    by_cases p1 : (mapGet w.receipts nonce).isNone = true
    case neg =>
      right
      refine ⟨1500, ?_⟩
      simp only [step, payViaCurve, if_neg p1, Except.map]
      rfl
    by_cases p2 : 0 < amt
    case neg =>
      right
      refine ⟨1501, ?_⟩
      simp only [step, payViaCurve, if_pos p1, if_neg p2, Except.map]
      rfl
    rcases buy_ok_or_code w s cid0 amt minOut hw p2 with ⟨r, w1, hok⟩ | ⟨nn, herr⟩
    · left
      refine ⟨payCore w1 s cid0 amt nonce r, ?_⟩
      simp only [step, payViaCurve, if_pos p1, if_pos p2, hok, Except.map]
    · right
      refine ⟨nn, ?_⟩
      simp only [step, payViaCurve, if_pos p1, if_pos p2, herr, Except.map]
  | advanceBlock =>
    left
    exact ⟨_, rfl⟩

/-! ### Read-only views -/

theorem getBuyQuote_ok_intro {w : World} {cid amt : Nat} {curve : Curve}
    (hget : mapGet w.curves cid = some curve)
    (h1 : tradeFee curve amt ≤ amt)
    (h2 : curve.tokensSold ≤ curve.totalSupply)
    (h3 : 0 < curve.virtualStx + newStxReserveBuy curve amt)
    (h4 : newTokenReserveBuy curve amt ≤ tokenReserve curve) :
    getBuyQuote w cid amt = .ok (tokensOutBuy curve amt, tradeFee curve amt) := by
  simp only [getBuyQuote, hget, if_pos h1, if_pos h2, if_pos h3, if_pos h4]

theorem getPrice_ok_intro {w : World} {cid : Nat} {curve : Curve}
    (hget : mapGet w.curves cid = some curve)
    (h2 : curve.tokensSold ≤ curve.totalSupply)
    (hnz : tokenReserve curve ≠ 0) :
    getPrice w cid =
      .ok ((curve.virtualStx + curve.stxReserve) * priceScale / tokenReserve curve) := by
  simp only [getPrice, hget, if_pos h2, if_neg hnz]

theorem getPrice_soldOut_intro {w : World} {cid : Nat} {curve : Curve}
    (hget : mapGet w.curves cid = some curve)
    (h2 : curve.tokensSold ≤ curve.totalSupply)
    (hz : tokenReserve curve = 0) :
    getPrice w cid = .ok 0 := by
  simp only [getPrice, hget, if_pos h2, if_pos hz]

/-! ### Concrete scenario chains -/

/-- Fresh deployment by `user 0`. -/
def wS0 : World := initWorld (.user 0)
/-- `user 1` registers as an agent (no per-task price). -/
def wS1 : World := runOp wS0 (.registerAgent (.user 1) "agent" "https" 0 true true)
/-- Tiny curve defaults: supply 10, virtual reserve 2, zero fee. -/
def wS2 : World := runOp wS1 (.setDefaults (.user 0) 10 2 1000000 0 8000)
/-- `user 1` launches curve 0. -/
def wS3 : World := runOp wS2 (.launch (.user 1) "AGT" "AGT")
/-- `user 2` buys the entire supply: curve 0 is sold out. -/
def wS4 : World := runOp wS3 (.buy (.user 2) 0 30 0)

theorem reachable_wS3 : Reachable wS3 :=
  Reachable.next (.launch (.user 1) "AGT" "AGT")
    (Reachable.next (.setDefaults (.user 0) 10 2 1000000 0 8000)
      (Reachable.next (.registerAgent (.user 1) "agent" "https" 0 true true)
        (Reachable.init (.user 0)) rfl) rfl) rfl

theorem reachable_wS4 : Reachable wS4 :=
  Reachable.next (.buy (.user 2) 0 30 0) reachable_wS3 rfl

/-- Defaults 10000/10000 with a 1% fee, used by the round-trip scenarios. -/
def wC2 : World := runOp wS1 (.setDefaults (.user 0) 10000 10000 1000000000 100 8000)
def wC3 : World := runOp wC2 (.launch (.user 1) "AGT" "AGT")
/-- A dust buy whose 1% fee floors to zero. -/
def wC4 : World := runOp wC3 (.buy (.user 2) 0 50 0)
def wC5 : World := runOp wC4 (.sell (.user 2) 0 50 0)
/-- A buy large enough to charge a nonzero fee. -/
def wC6 : World := runOp wC3 (.buy (.user 2) 0 10000 0)
def wC7 : World := runOp wC6 (.sell (.user 2) 0 4975 0)

theorem reachable_wC3 : Reachable wC3 :=
  Reachable.next (.launch (.user 1) "AGT" "AGT")
    (Reachable.next (.setDefaults (.user 0) 10000 10000 1000000000 100 8000)
      (Reachable.next (.registerAgent (.user 1) "agent" "https" 0 true true)
        (Reachable.init (.user 0)) rfl) rfl) rfl

/-- Defaults with graduation threshold 50, so one buy graduates curve 0. -/
def wD2 : World := runOp wS1 (.setDefaults (.user 0) 1000 100 50 500 8000)
def wD3 : World := runOp wD2 (.launch (.user 1) "AGT" "AGT")
def wD4 : World := runOp wD3 (.buy (.user 2) 0 100 0)
def wD5 : World := runOp wD4 .advanceBlock

/-- The curve stored at id 0 of `wD4`: graduated with an empty fee pool. -/
def cD4 : Curve :=
  { creator := .user 1, name := "AGT", symbol := "AGT", totalSupply := 1000,
    virtualStx := 100, k := 100000, stxReserve := 95, tokensSold := 488,
    graduationStx := 50, feeBps := 500, accruedFees := 0, graduated := true,
    createdAt := 0, creatorShareBps := 8000 }

/-- `user 1` registers with a per-task price of 100 microSTX. -/
def wE1 : World := runOp wS0 (.registerAgent (.user 1) "agent" "https" 100 true true)
def wE2 : World := runOp wE1 (.setDefaults (.user 0) 1000 100 1000000 100 8000)
def wE3 : World := runOp wE2 (.launch (.user 1) "AGT" "AGT")
/-- A routed payment of a single microSTX, far below the registry price. -/
def wE4 : World := runOp wE3 (.payViaCurve (.user 2) 0 1 7 0)

/-- Scenario A of the specification: stock defaults with graduation
threshold lowered to 100 STX. -/
def wA2 : World :=
  runOp wS1 (.setDefaults (.user 0) 1000000000000000 10000000000 100000000 100 8000)
def wA3 : World := runOp wA2 (.launch (.user 1) "AGT" "AGT")
def wA4 : World := runOp wA3 (.buy (.user 2) 0 200000000 0)

/-- A curve whose fee pool and reserve are primed for a manual graduation. -/
def cManual : Curve :=
  { creator := .user 1, name := "A", symbol := "A", totalSupply := 10,
    virtualStx := 2, k := 20, stxReserve := 5, tokensSold := 5,
    graduationStx := 5, feeBps := 100, accruedFees := 10, graduated := false,
    createdAt := 0, creatorShareBps := 8000 }

/-- A world holding `cManual` ready to graduate. -/
def wManual : World :=
  { agents := [], totalAgents := 0, totalCurves := 1, lpAdmin := .user 0,
    protocolFeeRecipient := .user 9, defaultTotalSupply := 10,
    defaultVirtualStx := 2, defaultGraduationStx := 5, defaultFeeBps := 100,
    defaultCreatorShareBps := 8000, curves := [(0, cManual)],
    balances := [((0, .user 2), 5)], agentCurve := [], totalPayments := 0,
    totalVolumeStx := 0, receipts := [], blockHeight := 0, stxLog := [] }

/-- `wManual` after its curve graduated. -/
def cManualG : Curve := { cManual with graduated := true, accruedFees := 0 }

def wManualG : World := { wManual with curves := [(0, cManualG)] }

/-! ### Claim C10: token conservation -/

/-- The curve stored at id 0 of `wS4`: sold out after `user 2` bought the
whole supply. -/
def cS4 : Curve :=
  { creator := .user 1, name := "AGT", symbol := "AGT", totalSupply := 10,
    virtualStx := 2, k := 20, stxReserve := 30, tokensSold := 10,
    graduationStx := 1000000, feeBps := 0, accruedFees := 0, graduated := false,
    createdAt := 0, creatorShareBps := 8000 }

/-- C10: in every reachable state, the holder balances recorded for a
curve sum exactly to that curve's `tokensSold`: buys mint and sells burn
against `tokensSold`, and transfers only move balances between holders. -/
theorem c10_token_conservation :
    ∀ w, Reachable w → ∀ cid c, mapGet w.curves cid = some c →
      sumBal w.balances cid = c.tokensSold := by
  intro w hr cid c hget
  exact (worldOk_curve (reachable_worldOk hr) hget).2.2

/-- Witness for C10 on the concrete sold-out chain state `wS4`. -/
theorem c10_token_conservation_witness : sumBal wS4.balances 0 = 10 :=
  c10_token_conservation wS4 reachable_wS4 0 cS4 (by decide)

/-! ### Claim C4: idempotent replay rejection -/

/-- C4: after any successful `payViaCurve`, repeating the call with the
same nonce (any sender, curve, amount and minimum) fails with the
router's nonce-used error and, under the host commit-or-abort semantics,
leaves the whole state — receipts, curves, balances and the global
payment stats — unchanged. -/
theorem c4_replay_rejection :
    ∀ w sender curveId stxAmount nonce minTokensOut res w₁,
      payViaCurve w sender curveId stxAmount nonce minTokensOut = .ok (res, w₁) →
      ∀ sender' curveId' stxAmount' minTokensOut',
        payViaCurve w₁ sender' curveId' stxAmount' nonce minTokensOut' =
          .error errNonceUsed ∧
        runOp w₁ (.payViaCurve sender' curveId' stxAmount' nonce minTokensOut') = w₁ := by
  intro w sender curveId stxAmount nonce minTokensOut res w₁ h
  intro sender' curveId' stxAmount' minTokensOut'
  obtain ⟨w1, p1, p2, hbuy, hw⟩ := payViaCurve_ok_elim h
  subst hw
  have hnot : ¬ ((mapGet (payCore w1 sender curveId stxAmount nonce res).receipts
      nonce).isNone = true) := by
    show ¬ ((mapGet (mapSet w1.receipts nonce
      (payReceipt w1 sender curveId stxAmount res)) nonce).isNone = true)
    rw [mapGet_mapSet_self]
    simp
  have herr : payViaCurve (payCore w1 sender curveId stxAmount nonce res) sender'
      curveId' stxAmount' nonce minTokensOut' = .error errNonceUsed := by
    simp only [payViaCurve, if_neg hnot]
  have hstep : step (payCore w1 sender curveId stxAmount nonce res)
      (.payViaCurve sender' curveId' stxAmount' nonce minTokensOut') =
      .error errNonceUsed := by
    show (payViaCurve (payCore w1 sender curveId stxAmount nonce res) sender'
      curveId' stxAmount' nonce minTokensOut').map (·.2) = .error errNonceUsed
    rw [herr]
    rfl
  exact ⟨herr, runOp_error hstep⟩

/-- Witness for C4: the concrete routed payment recorded in `wE4`,
replayed under the same nonce by another sender. -/
theorem c4_replay_rejection_witness :
    payViaCurve wE4 (.user 3) 0 5 7 0 = .error errNonceUsed ∧
    runOp wE4 (.payViaCurve (.user 3) 0 5 7 0) = wE4 :=
  c4_replay_rejection wE3 (.user 2) 0 1 7 0 (10, 0) wE4 rfl (.user 3) 0 5 0

/-! ### Claim C3: the router's pre-checks -/

/-- C3 counterexample: the registry records a per-task price of 100 for
the issuer of curve 0, yet the router accepts a routed payment of a
single microSTX — `pay-via-curve` reads no floor price from the registry
before delegating to `buy`. -/
theorem c3_counterexample :
    (mapGet wE3.agents (.user 1)).map Agent.pricePerTask = some 100 ∧
    mapGet wE3.agentCurve (.user 1) = some 0 ∧
    (1 : Nat) < 100 ∧
    payViaCurve wE3 (.user 2) 0 1 7 0 = .ok ((10, 0), wE4) :=
  ⟨by decide, by decide, by decide, rfl⟩

/-- C3 (amended): before delegating to `buy` the router checks only that
the nonce is fresh and that the amount is nonzero, each rejection carrying
its own router-level error code distinct from the AMM-level codes; it
enforces no registry floor price, and when both checks pass the call is
exactly the delegated `buy` followed by the receipt write and stats
bump. -/
theorem c3_router_checks :
    ∀ w sender curveId stxAmount nonce minTokensOut,
      (¬ (mapGet w.receipts nonce).isNone = true →
        payViaCurve w sender curveId stxAmount nonce minTokensOut =
          .error errNonceUsed) ∧
      ((mapGet w.receipts nonce).isNone = true → stxAmount = 0 →
        payViaCurve w sender curveId stxAmount nonce minTokensOut =
          .error errZeroAmountRouter) ∧
      ((mapGet w.receipts nonce).isNone = true → 0 < stxAmount →
        payViaCurve w sender curveId stxAmount nonce minTokensOut =
          match buy w sender curveId stxAmount minTokensOut with
          | .error e => .error e
          | .ok (res, w1) => .ok (res, payCore w1 sender curveId stxAmount nonce res)) := by
  intro w sender curveId stxAmount nonce minTokensOut
  refine ⟨?_, ?_, ?_⟩
  · intro hn
    simp only [payViaCurve, if_neg hn]
  · intro hp hz
    subst hz
    simp only [payViaCurve, if_pos hp, if_neg (Nat.lt_irrefl 0)]
  · intro hp ha
    simp only [payViaCurve, if_pos hp, if_pos ha]

/-- Witness for C3 at concrete router states: a replayed nonce, a zero
amount, and a passing call that reduces to the delegated `buy`. -/
theorem c3_router_checks_witness :
    payViaCurve wE4 (.user 3) 0 9 7 0 = .error errNonceUsed ∧
    payViaCurve wE3 (.user 2) 0 0 8 0 = .error errZeroAmountRouter ∧
    payViaCurve wE3 (.user 2) 0 1 7 0 =
      match buy wE3 (.user 2) 0 1 0 with
      | .error e => .error e
      | .ok (res, w1) => .ok (res, payCore w1 (.user 2) 0 1 7 res) :=
  ⟨(c3_router_checks wE4 (.user 3) 0 9 7 0).1 (by decide),
   (c3_router_checks wE3 (.user 2) 0 0 8 0).2.1 (by decide) rfl,
   (c3_router_checks wE3 (.user 2) 0 1 7 0).2.2 (by decide) (by decide)⟩

/-! ### Claim C9: discriminated errors and atomicity -/

/-- C9 counterexample: on the reachable sold-out state `wS4`, a sell of
zero tokens aborts with a division by zero, and a sell of more tokens
than the supply aborts with an arithmetic underflow, both in the
let-bound quote arithmetic ahead of the discriminated `asserts!`
validations — so not every abort on a reachable state carries a
discriminated error code. -/
theorem c9_counterexample :
    Reachable wS4 ∧
    sell wS4 (.user 2) 0 0 0 = .error CErr.divZero ∧
    sell wS4 (.user 2) 0 11 0 = .error CErr.underflow ∧
    (∀ n, CErr.divZero ≠ CErr.code n) ∧ (∀ n, CErr.underflow ≠ CErr.code n) :=
  ⟨reachable_wS4, rfl, rfl, fun _ h => CErr.noConfusion h,
   fun _ h => CErr.noConfusion h⟩

/-- C9 (amended): under the host commit-or-abort semantics every failing
operation leaves the state unchanged, and on a reachable state every
operation with safe amounts (a positive buy amount; a positive sell
amount within the seller's recorded balance) either succeeds or fails
with a discriminated error code — under those hypotheses the quote
arithmetic of `buy` and `sell` never underflows or divides by zero. -/
theorem c9_discriminated_errors :
    (∀ w op, Reachable w → SafeAmounts w op →
      (∃ w', step w op = .ok w') ∨ (∃ n, step w op = .error (CErr.code n))) ∧
    (∀ w op e, step w op = .error e → runOp w op = w) := by
  constructor
  · intro w op hr hsafe
    exact step_ok_or_code w op (reachable_worldOk hr) hsafe
  · intro w op e h
    exact runOp_error h

/-- Witness for C9 at the sold-out state: a safe sell resolves to a
success or a coded error, and the aborting zero-amount sell mutates
nothing. -/
theorem c9_discriminated_errors_witness :
    ((∃ w', step wS4 (.sell (.user 2) 0 5 0) = .ok w') ∨
      (∃ n, step wS4 (.sell (.user 2) 0 5 0) = .error (CErr.code n))) ∧
    runOp wS4 (.sell (.user 2) 0 0 0) = wS4 :=
  ⟨c9_discriminated_errors.1 wS4 (.sell (.user 2) 0 5 0) reachable_wS4
    ⟨by decide, by decide⟩,
   c9_discriminated_errors.2 wS4 (.sell (.user 2) 0 0 0) CErr.divZero rfl⟩

/-! ### Claim C8: Scenario A -/

/-- The Scenario A curve as launched at `wA3`. -/
def cA3 : Curve :=
  { creator := .user 1, name := "AGT", symbol := "AGT",
    totalSupply := 1000000000000000, virtualStx := 10000000000,
    k := 10000000000000000000000000, stxReserve := 0, tokensSold := 0,
    graduationStx := 100000000, feeBps := 100, accruedFees := 0,
    graduated := false, createdAt := 0, creatorShareBps := 8000 }

/-- The Scenario A curve after the graduating buy. -/
def cA4 : Curve :=
  { cA3 with stxReserve := 198000000, tokensSold := 19415571680722,
             graduated := true }

/-- C8: Scenario A — on a fresh curve with supply 10^15, virtual reserve
10^10, fee 100 bps, creator share 8000 bps and graduation threshold 10^8,
a single `buy` of 2·10^8 succeeds with fee 2_000_000 = 1% of the amount,
graduates the curve synchronously in the same call, leaves its fee pool
empty and `graduated` set, and pays the creator 1_600_000 (80% of the
fee) and the protocol recipient 400_000 (the remaining 20%). -/
theorem c8_scenario_a :
    mapGet wA3.curves 0 = some cA3 ∧
    buy wA3 (.user 2) 0 200000000 0 = .ok ((19415571680722, 2000000), wA4) ∧
    2000000 = 200000000 * cA3.feeBps / bpsDenom ∧
    mapGet wA4.curves 0 = some cA4 ∧
    cA4.accruedFees = 0 ∧ cA4.graduated = true ∧
    wA4.stxLog =
      [⟨.launchpadContract, .user 0, 400000⟩,
       ⟨.launchpadContract, .user 1, 1600000⟩,
       ⟨.user 2, .launchpadContract, 200000000⟩] ∧
    1600000 = 2000000 * cA3.creatorShareBps / bpsDenom ∧
    400000 = 2000000 - 1600000 :=
  ⟨by decide, rfl, by decide, by decide, rfl, rfl, rfl, by decide, rfl⟩

/-! ### Claim C5: graduate once -/

/-- C5: on a curve whose reserve has reached the graduation threshold and
which is not yet graduated, `graduate` succeeds, pays the creator
`floor(accruedFees * creatorShareBps / 10000)` and the protocol recipient
the exact remainder (the two shares sum to the fee pool of that moment),
zeroes the fee pool and marks the curve graduated; on an already
graduated curve `graduate` fails with the graduated error and mutates
nothing; and no successful operation ever resets `graduated`. -/
theorem c5_graduate_once :
    (∀ w cid curve, mapGet w.curves cid = some curve →
      curve.creatorShareBps ≤ bpsDenom →
      curve.graduationStx ≤ curve.stxReserve →
      curve.graduated = false →
      graduate w cid = .ok (true, graduateCore w cid curve) ∧
      creatorShareOf curve = curve.accruedFees * curve.creatorShareBps / bpsDenom ∧
      creatorShareOf curve + protocolShareOf curve = curve.accruedFees ∧
      mapGet (graduateCore w cid curve).curves cid =
        some { curve with graduated := true, accruedFees := 0 } ∧
      (graduateCore w cid curve).stxLog =
        (if 0 < protocolShareOf curve then
          [⟨Principal.launchpadContract, w.protocolFeeRecipient, protocolShareOf curve⟩]
         else []) ++
        (if 0 < creatorShareOf curve then
          [⟨Principal.launchpadContract, curve.creator, creatorShareOf curve⟩]
         else []) ++ w.stxLog) ∧
    (∀ w cid curve, mapGet w.curves cid = some curve →
      creatorShareOf curve ≤ curve.accruedFees →
      curve.graduationStx ≤ curve.stxReserve →
      curve.graduated = true →
      graduate w cid = .error errGraduated ∧
      ∀ s, runOp w (.graduate s cid) = w) ∧
    (∀ w op w' cid c, cid < w.totalCurves → step w op = .ok w' →
      mapGet w.curves cid = some c → c.graduated = true →
      ∃ c', mapGet w'.curves cid = some c' ∧ c'.graduated = true) := by
  refine ⟨?_, ?_, ?_⟩
  · intro w cid curve hget hsh hB hC
    have hA : creatorShareOf curve ≤ curve.accruedFees := feeLe hsh
    have hok := graduateInternal_ok_intro hget hA hB hC
    refine ⟨?_, rfl, ?_, ?_, rfl⟩
    · simp only [graduate, hok]
    · have hA' : curve.accruedFees * curve.creatorShareBps / bpsDenom ≤
        curve.accruedFees := hA
      show creatorShareOf curve + (curve.accruedFees - creatorShareOf curve) =
        curve.accruedFees
      omega
    · rw [graduateCore_get hget]
      rw [if_pos rfl]
  · intro w cid curve hget hA hB hC
    have herr : graduateInternal w cid = .error errGraduated := by
      simp only [graduateInternal, hget, if_pos hA, if_pos hB, hC,
        eq_self_iff_true, if_true]
    have hg : graduate w cid = .error errGraduated := by
      simp only [graduate, herr]
    refine ⟨hg, ?_⟩
    intro s
    have hstep : step w (.graduate s cid) = .error errGraduated := by
      show (graduate w cid).map (·.2) = .error errGraduated
      rw [hg]
      rfl
    exact runOp_error hstep
  · intro w op w' cid c hlt hstep hget hg
    obtain ⟨c', hget', -, -, -, -, -, -, himp⟩ := step_curve_persist hlt hstep hget
    exact ⟨c', hget', himp hg⟩

/-- Witness for C5: the primed curve of `wManual` graduates with an exact
fee split, the already graduated copy `wManualG` rejects a repeat with no
state change, and the auto-graduated curve of `wD4` stays graduated over
a further block. -/
theorem c5_graduate_once_witness :
    (graduate wManual 0 = .ok (true, graduateCore wManual 0 cManual) ∧
      creatorShareOf cManual + protocolShareOf cManual = cManual.accruedFees) ∧
    graduate wManualG 0 = .error errGraduated ∧
    runOp wManualG (.graduate (.user 3) 0) = wManualG ∧
    (∃ c', mapGet wD5.curves 0 = some c' ∧ c'.graduated = true) := by
  have h1 := c5_graduate_once.1 wManual 0 cManual (by decide) (by decide)
    (by decide) (by decide)
  have h2 := c5_graduate_once.2.1 wManualG 0 cManualG (by decide) (by decide)
    (by decide) rfl
  have h3 := c5_graduate_once.2.2 wD4 .advanceBlock wD5 0 cD4 (by decide) rfl
    (by decide) rfl
  exact ⟨⟨h1.1, h1.2.2.1⟩, h2.1, h2.2 (.user 3), h3⟩

/-! ### Claim C1: the constant-product invariant -/

/-- The curve stored at id 0 of `wS3`, fresh from `launch`. -/
def cS3 : Curve :=
  { creator := .user 1, name := "AGT", symbol := "AGT", totalSupply := 10,
    virtualStx := 2, k := 20, stxReserve := 0, tokensSold := 0,
    graduationStx := 1000000, feeBps := 0, accruedFees := 0, graduated := false,
    createdAt := 0, creatorShareBps := 8000 }

/-- C1: in every reachable state every stored curve satisfies the
constant-product invariant up to the per-trade floor rounding — the
two-sided bound `(v+r)(S−sold) ≤ k < (v+r+1)(S−sold+1)` together with
`tokensSold ≤ totalSupply`; immediately after a successful buy the token
reserve is exactly the floored quotient `k / (v + r)`, immediately after
a successful sell the offset reserve is exactly `k / (S − sold)`; and no
operation ever changes `k`, `totalSupply` or `virtualStx` of a stored
curve. -/
theorem c1_constant_product_invariant :
    (∀ w, Reachable w → ∀ cid c, mapGet w.curves cid = some c →
      c.tokensSold ≤ c.totalSupply ∧
      (c.virtualStx + c.stxReserve) * (c.totalSupply - c.tokensSold) ≤ c.k ∧
      c.k < (c.virtualStx + c.stxReserve + 1) * (c.totalSupply - c.tokensSold + 1)) ∧
    (∀ w sender cid amt minOut res w', buy w sender cid amt minOut = .ok (res, w') →
      ∃ c', mapGet w'.curves cid = some c' ∧
        c'.totalSupply - c'.tokensSold = c'.k / (c'.virtualStx + c'.stxReserve)) ∧
    (∀ w sender cid amt minOut res w', sell w sender cid amt minOut = .ok (res, w') →
      ∃ c', mapGet w'.curves cid = some c' ∧
        c'.virtualStx + c'.stxReserve = c'.k / (c'.totalSupply - c'.tokensSold)) ∧
    (∀ w op w' cid c, Reachable w → step w op = .ok w' →
      mapGet w.curves cid = some c →
      ∃ c', mapGet w'.curves cid = some c' ∧ c'.k = c.k ∧
        c'.totalSupply = c.totalSupply ∧ c'.virtualStx = c.virtualStx) := by
  refine ⟨?_, ?_, ?_, ?_⟩
  · intro w hr cid c hget
    obtain ⟨-, hc, -⟩ := worldOk_curve (reachable_worldOk hr) hget
    exact ⟨hc.2.2.2.2.2.1, hc.2.2.2.2.2.2.1, hc.2.2.2.2.2.2.2⟩
  · intro w sender cid amt minOut res w' h
    obtain ⟨curve, hget, h1, h2, h3, h4, h5, h6, h7, h8, h9, hres, hdich⟩ :=
      buy_ok_elim h
    have hgoal : curve.totalSupply - (curve.tokensSold +
        ((curve.totalSupply - curve.tokensSold) - newTokenReserveBuy curve amt)) =
        curve.k / (curve.virtualStx + newStxReserveBuy curve amt) := by
      have h4' : newTokenReserveBuy curve amt ≤
        curve.totalSupply - curve.tokensSold := h4
      have hNB : curve.k / (curve.virtualStx + newStxReserveBuy curve amt) =
        newTokenReserveBuy curve amt := rfl
      omega
    rcases hdich with ⟨h10, hw'⟩ | ⟨h10, hgi⟩
    · subst hw'
      exact ⟨buyCurve curve amt, mapGet_buyCore_self w sender cid amt curve, hgoal⟩
    · obtain ⟨c2, hget2, -, -, -, -, hw'⟩ := graduateInternal_ok_elim hgi
      rw [mapGet_buyCore_self] at hget2
      injection hget2 with hh
      subst hh
      subst hw'
      refine ⟨{ buyCurve curve amt with graduated := true, accruedFees := 0 },
        ?_, hgoal⟩
      rw [graduateCore_get (mapGet_buyCore_self w sender cid amt curve)]
      rw [if_pos rfl]
  · intro w sender cid amt minOut res w' h
    obtain ⟨curve, sellerBal, hget, hbal, s1, s3, s4, s5, s6, s7, s8, s9, s10,
      s11, hres, hw'⟩ := sell_ok_elim h
    subst hw'
    refine ⟨sellCurve curve amt, ?_, ?_⟩
    · show mapGet (mapSet w.curves cid (sellCurve curve amt)) cid =
        some (sellCurve curve amt)
      exact mapGet_mapSet_self _ _ _
    · show curve.virtualStx +
        (curve.k / newTokenReserveSell curve amt - curve.virtualStx) =
        curve.k / (curve.totalSupply - (curve.tokensSold - amt))
      have hT : curve.totalSupply - (curve.tokensSold - amt) =
          newTokenReserveSell curve amt := by
        have hT' : newTokenReserveSell curve amt =
          (curve.totalSupply - curve.tokensSold) + amt := rfl
        omega
      rw [hT]
      omega
  · intro w op w' cid c hr hstep hget
    have hlt := (worldOk_curve (reachable_worldOk hr) hget).1
    obtain ⟨c', hget', hk, hS, hV, -, -, -, -⟩ := step_curve_persist hlt hstep hget
    exact ⟨c', hget', hk, hS, hV⟩

/-- Witness for C1: the two-sided bound on the sold-out curve of `wS4`,
the exact post-buy identity at `wC6`, the exact post-sell identity at
`wC7`, and persistence of `k`, `totalSupply` and `virtualStx` across the
buy that produced `wS4`. -/
theorem c1_constant_product_invariant_witness :
    (cS4.tokensSold ≤ cS4.totalSupply ∧
      (cS4.virtualStx + cS4.stxReserve) * (cS4.totalSupply - cS4.tokensSold) ≤
        cS4.k ∧
      cS4.k < (cS4.virtualStx + cS4.stxReserve + 1) *
        (cS4.totalSupply - cS4.tokensSold + 1)) ∧
    (∃ c', mapGet wC6.curves 0 = some c' ∧
      c'.totalSupply - c'.tokensSold = c'.k / (c'.virtualStx + c'.stxReserve)) ∧
    (∃ c', mapGet wC7.curves 0 = some c' ∧
      c'.virtualStx + c'.stxReserve = c'.k / (c'.totalSupply - c'.tokensSold)) ∧
    (∃ c', mapGet wS4.curves 0 = some c' ∧ c'.k = cS3.k ∧
      c'.totalSupply = cS3.totalSupply ∧ c'.virtualStx = cS3.virtualStx) :=
  ⟨c1_constant_product_invariant.1 wS4 reachable_wS4 0 cS4 (by decide),
   c1_constant_product_invariant.2.1 wC3 (.user 2) 0 10000 0 (4975, 100) wC6 rfl,
   c1_constant_product_invariant.2.2.1 wC6 (.user 2) 0 4975 0 (9801, 99) wC7 rfl,
   c1_constant_product_invariant.2.2.2 wS3 (.buy (.user 2) 0 30 0) wS4 0 cS3
     reachable_wS3 rfl (by decide)⟩

/-! ### Claim C2: the buy formula -/

/-- The curve stored at id 0 of `wD3`: primed so its first buy graduates. -/
def cD3 : Curve :=
  { creator := .user 1, name := "AGT", symbol := "AGT", totalSupply := 1000,
    virtualStx := 100, k := 100000, stxReserve := 0, tokensSold := 0,
    graduationStx := 50, feeBps := 500, accruedFees := 0, graduated := false,
    createdAt := 0, creatorShareBps := 8000 }

/-- The curve stored at id 0 of `wC3`, fresh from `launch` with a 1% fee. -/
def cC3 : Curve :=
  { creator := .user 1, name := "AGT", symbol := "AGT", totalSupply := 10000,
    virtualStx := 10000, k := 100000000, stxReserve := 0, tokensSold := 0,
    graduationStx := 1000000000, feeBps := 100, accruedFees := 0,
    graduated := false, createdAt := 0, creatorShareBps := 8000 }

/-- C2 counterexample: a valid buy that crosses the graduation threshold
charges a positive fee yet leaves `accruedFees` at 0 — the synchronous
graduation zeroes the pool in the same call, so `buy` does not always
increase `accruedFees` by the fee. -/
theorem c2_counterexample :
    mapGet wD3.curves 0 = some cD3 ∧
    buy wD3 (.user 2) 0 100 0 = .ok ((488, 5), wD4) ∧
    (0 : Nat) < 5 ∧
    mapGet wD4.curves 0 = some cD4 ∧
    cD4.accruedFees = 0 ∧ cD4.accruedFees ≠ cD3.accruedFees + 5 :=
  ⟨by decide, rfl, by decide, by decide, rfl, by decide⟩

/-- C2 (amended): a successful `buy` returns exactly the floored fee and
constant-product output of the specification, credits the buyer, raises
the reserve by the net amount and `tokensSold` by the output, and matches
`getBuyQuote` on the pre-state; `accruedFees` grows by the fee exactly
when the new reserve stays below the graduation threshold, and is zeroed
(with `graduated` set) when the buy graduates the curve. -/
theorem c2_buy_formula :
    ∀ w sender cid amt minOut out fee w' c,
      buy w sender cid amt minOut = .ok ((out, fee), w') →
      mapGet w.curves cid = some c →
      fee = amt * c.feeBps / bpsDenom ∧
      out = (c.totalSupply - c.tokensSold) -
        c.k / (c.virtualStx + (c.stxReserve + (amt - fee))) ∧
      mapGet w'.balances (cid, sender) =
        some ((mapGet w.balances (cid, sender)).getD 0 + out) ∧
      (∃ c', mapGet w'.curves cid = some c' ∧
        c'.stxReserve = c.stxReserve + (amt - fee) ∧
        c'.tokensSold = c.tokensSold + out ∧
        (c.stxReserve + (amt - fee) < c.graduationStx →
          c'.accruedFees = c.accruedFees + fee ∧ c'.graduated = false) ∧
        (c.graduationStx ≤ c.stxReserve + (amt - fee) →
          c'.accruedFees = 0 ∧ c'.graduated = true)) ∧
      getBuyQuote w cid amt = .ok (out, fee) := by
  intro w sender cid amt minOut out fee w' c h hget
  obtain ⟨curve, hget0, h1, h2, h3, h4, h5, h6, h7, h8, h9, hres, hdich⟩ :=
    buy_ok_elim h
  rw [hget0] at hget
  injection hget with hc
  subst hc
  injection hres with hout hfee
  subst hout
  subst hfee
  rcases hdich with ⟨h10, hw'⟩ | ⟨h10, hgi⟩
  · subst hw'
    refine ⟨rfl, rfl, ?_, ?_, ?_⟩
    · show mapGet (mapSet w.balances (cid, sender)
        ((mapGet w.balances (cid, sender)).getD 0 + tokensOutBuy curve amt))
        (cid, sender) = _
      rw [mapGet_mapSet_self]
    · refine ⟨buyCurve curve amt, mapGet_buyCore_self w sender cid amt curve,
        rfl, rfl, ?_, ?_⟩
      · intro hlt
        exact ⟨rfl, h5⟩
      · intro hge
        exact absurd hge h10
    · exact getBuyQuote_ok_intro hget0 h1 h2 h3 h4
  · obtain ⟨c2, hget2, -, -, -, -, hw'⟩ := graduateInternal_ok_elim hgi
    rw [mapGet_buyCore_self] at hget2
    injection hget2 with hh
    subst hh
    subst hw'
    refine ⟨rfl, rfl, ?_, ?_, ?_⟩
    · show mapGet (mapSet w.balances (cid, sender)
        ((mapGet w.balances (cid, sender)).getD 0 + tokensOutBuy curve amt))
        (cid, sender) = _
      rw [mapGet_mapSet_self]
    · refine ⟨{ buyCurve curve amt with graduated := true, accruedFees := 0 },
        ?_, rfl, rfl, ?_, ?_⟩
      · rw [graduateCore_get (mapGet_buyCore_self w sender cid amt curve)]
        rw [if_pos rfl]
      · intro hlt
        exact absurd h10 (Nat.not_le.mpr hlt)
      · intro hge
        exact ⟨rfl, rfl⟩
    · exact getBuyQuote_ok_intro hget0 h1 h2 h3 h4

/-- Witness for C2 at the concrete non-graduating buy `wC3 → wC6`. -/
theorem c2_buy_formula_witness :
    (100 : Nat) = 10000 * cC3.feeBps / bpsDenom ∧
    (4975 : Nat) = (cC3.totalSupply - cC3.tokensSold) -
      cC3.k / (cC3.virtualStx + (cC3.stxReserve + (10000 - 100))) ∧
    mapGet wC6.balances (0, .user 2) =
      some ((mapGet wC3.balances (0, .user 2)).getD 0 + 4975) ∧
    (∃ c', mapGet wC6.curves 0 = some c' ∧
      c'.stxReserve = cC3.stxReserve + (10000 - 100) ∧
      c'.tokensSold = cC3.tokensSold + 4975 ∧
      (cC3.stxReserve + (10000 - 100) < cC3.graduationStx →
        c'.accruedFees = cC3.accruedFees + 100 ∧ c'.graduated = false) ∧
      (cC3.graduationStx ≤ cC3.stxReserve + (10000 - 100) →
        c'.accruedFees = 0 ∧ c'.graduated = true)) ∧
    getBuyQuote wC3 0 10000 = .ok (4975, 100) :=
  c2_buy_formula wC3 (.user 2) 0 10000 0 4975 100 wC6 cC3 rfl (by decide)

/-! ### Claim C6: price monotonicity -/

/-- The curve stored at id 0 of `wC6`, after the 10000 microSTX buy. -/
def cC6 : Curve :=
  { creator := .user 1, name := "AGT", symbol := "AGT", totalSupply := 10000,
    virtualStx := 10000, k := 100000000, stxReserve := 9900, tokensSold := 4975,
    graduationStx := 1000000000, feeBps := 100, accruedFees := 100,
    graduated := false, createdAt := 0, creatorShareBps := 8000 }

/-- C6 counterexample: a successful buy that empties the token reserve
drops the reported price from 200_000_000_000 to the sold-out sentinel 0,
so `price()` is not non-decreasing across every successful buy. -/
theorem c6_counterexample :
    buy wS3 (.user 2) 0 30 0 = .ok ((10, 0), wS4) ∧
    getPrice wS3 0 = .ok 200000000000 ∧
    getPrice wS4 0 = .ok 0 ∧
    (0 : Nat) < 200000000000 :=
  ⟨rfl, rfl, rfl, by decide⟩

/-- C6 (amended): as long as the state compared against is not the
sold-out sentinel — the token reserve after a buy, respectively before a
sell, is nonzero — the price is non-decreasing across a successful buy
and non-increasing across a successful sell, all else held fixed. -/
theorem c6_price_monotonicity :
    (∀ w sender cid amt minOut res w' c',
      buy w sender cid amt minOut = .ok (res, w') →
      mapGet w'.curves cid = some c' →
      c'.totalSupply - c'.tokensSold ≠ 0 →
      ∃ p p', getPrice w cid = .ok p ∧ getPrice w' cid = .ok p' ∧ p ≤ p') ∧
    (∀ w sender cid amt minOut res w' c,
      sell w sender cid amt minOut = .ok (res, w') →
      mapGet w.curves cid = some c →
      c.totalSupply - c.tokensSold ≠ 0 →
      ∃ p p', getPrice w cid = .ok p ∧ getPrice w' cid = .ok p' ∧ p' ≤ p) := by
  constructor
  · intro w sender cid amt minOut res w' c' h hget' hnz
    obtain ⟨curve, hget, h1, h2, h3, h4, h5, h6, h7, h8, h9, hres, hdich⟩ :=
      buy_ok_elim h
    have hpre : getPrice w cid =
        .ok ((curve.virtualStx + curve.stxReserve) * priceScale /
          tokenReserve curve) :=
      getPrice_ok_intro hget h2 (by omega)
    have hcurve' : mapGet w'.curves cid = some (buyCurve curve amt) ∨
        mapGet w'.curves cid =
          some { buyCurve curve amt with graduated := true, accruedFees := 0 } := by
      rcases hdich with ⟨h10, hw'⟩ | ⟨h10, hgi⟩
      · subst hw'
        exact Or.inl (mapGet_buyCore_self w sender cid amt curve)
      · obtain ⟨c2, hget2, -, -, -, -, hw'⟩ := graduateInternal_ok_elim hgi
        rw [mapGet_buyCore_self] at hget2
        injection hget2 with hh
        subst hh
        subst hw'
        right
        rw [graduateCore_get (mapGet_buyCore_self w sender cid amt curve)]
        rw [if_pos rfl]
    have hfields : c'.totalSupply = curve.totalSupply ∧
        c'.tokensSold = curve.tokensSold + tokensOutBuy curve amt ∧
        c'.virtualStx = curve.virtualStx ∧
        c'.stxReserve = newStxReserveBuy curve amt := by
      rcases hcurve' with hh | hh
      · have heq := hget'.symm.trans hh
        injection heq with heq2
        subst heq2
        exact ⟨rfl, rfl, rfl, rfl⟩
      · have heq := hget'.symm.trans hh
        injection heq with heq2
        subst heq2
        exact ⟨rfl, rfl, rfl, rfl⟩
    obtain ⟨hS', hsold', hv', hr'⟩ := hfields
    have hout' : tokensOutBuy curve amt =
      (curve.totalSupply - curve.tokensSold) - newTokenReserveBuy curve amt := rfl
    have h4' : newTokenReserveBuy curve amt ≤
      curve.totalSupply - curve.tokensSold := h4
    have h2' : c'.tokensSold ≤ c'.totalSupply := by
      rw [hS', hsold']
      omega
    have hTR : tokenReserve c' = newTokenReserveBuy curve amt := by
      unfold tokenReserve
      rw [hS', hsold']
      omega
    have hnzTR : tokenReserve c' ≠ 0 := hnz
    have hpos : 0 < newTokenReserveBuy curve amt := by
      rw [hTR] at hnzTR
      omega
    have hpost := getPrice_ok_intro hget' h2' (by rw [hTR]; omega)
    refine ⟨_, _, hpre, hpost, ?_⟩
    rw [hTR, hv', hr']
    have hnum : curve.virtualStx + curve.stxReserve ≤
        curve.virtualStx + newStxReserveBuy curve amt := by
      have hrr : newStxReserveBuy curve amt =
        curve.stxReserve + netStx curve amt := rfl
      omega
    calc (curve.virtualStx + curve.stxReserve) * priceScale / tokenReserve curve
        ≤ (curve.virtualStx + newStxReserveBuy curve amt) * priceScale /
            tokenReserve curve :=
          Nat.div_le_div_right (Nat.mul_le_mul_right priceScale hnum)
      _ ≤ (curve.virtualStx + newStxReserveBuy curve amt) * priceScale /
            newTokenReserveBuy curve amt := divAntitone _ hpos h4
  · intro w sender cid amt minOut res w' c h hget0 hnz
    obtain ⟨curve, sellerBal, hget, hbal, s1, s3, s4, s5, s6, s7, s8, s9, s10,
      s11, hres, hw'⟩ := sell_ok_elim h
    have heq := hget.symm.trans hget0
    injection heq with heq2
    subst heq2
    subst hw'
    have hnz' : curve.totalSupply - curve.tokensSold ≠ 0 := hnz
    have hposPre : 0 < tokenReserve curve := by
      show 0 < curve.totalSupply - curve.tokensSold
      omega
    have hpre : getPrice w cid =
        .ok ((curve.virtualStx + curve.stxReserve) * priceScale /
          tokenReserve curve) :=
      getPrice_ok_intro hget s1 (by omega)
    have hget' : mapGet (sellCore w sender cid amt curve sellerBal).curves cid =
        some (sellCurve curve amt) := by
      show mapGet (mapSet w.curves cid (sellCurve curve amt)) cid = _
      exact mapGet_mapSet_self _ _ _
    have hT' : newTokenReserveSell curve amt = tokenReserve curve + amt := rfl
    have hTR : tokenReserve (sellCurve curve amt) =
        newTokenReserveSell curve amt := by
      show curve.totalSupply - (curve.tokensSold - amt) = _
      unfold tokenReserve at hT' hposPre
      omega
    have h2' : (sellCurve curve amt).tokensSold ≤
        (sellCurve curve amt).totalSupply := by
      show curve.tokensSold - amt ≤ curve.totalSupply
      omega
    have hpost := getPrice_ok_intro hget' h2'
      (by rw [hTR]; unfold tokenReserve at hT' hposPre; omega)
    refine ⟨_, _, hpre, hpost, ?_⟩
    rw [hTR]
    have hnum : (sellCurve curve amt).virtualStx +
        (sellCurve curve amt).stxReserve ≤
        curve.virtualStx + curve.stxReserve := by
      show curve.virtualStx + newStxReserveSell curve amt ≤
        curve.virtualStx + curve.stxReserve
      omega
    have hden : tokenReserve curve ≤ newTokenReserveSell curve amt := by
      omega
    calc ((sellCurve curve amt).virtualStx + (sellCurve curve amt).stxReserve) *
          priceScale / newTokenReserveSell curve amt
        ≤ ((sellCurve curve amt).virtualStx + (sellCurve curve amt).stxReserve) *
            priceScale / tokenReserve curve := divAntitone _ hposPre hden
      _ ≤ (curve.virtualStx + curve.stxReserve) * priceScale /
            tokenReserve curve :=
          Nat.div_le_div_right (Nat.mul_le_mul_right priceScale hnum)

/-- Witness for C6 on the concrete round trip `wC3 → wC6 → wC7`. -/
theorem c6_price_monotonicity_witness :
    (∃ p p', getPrice wC3 0 = .ok p ∧ getPrice wC6 0 = .ok p' ∧ p ≤ p') ∧
    (∃ p p', getPrice wC6 0 = .ok p ∧ getPrice wC7 0 = .ok p' ∧ p' ≤ p) :=
  ⟨c6_price_monotonicity.1 wC3 (.user 2) 0 10000 0 (4975, 100) wC6 cC6 rfl
     (by decide) (by decide),
   c6_price_monotonicity.2 wC6 (.user 2) 0 4975 0 (9801, 99) wC7 cC6 rfl
     (by decide) (by decide)⟩

/-! ### Claim C7: the round-trip bound -/

/-- C7 counterexample: with a 1% fee both floored fees of a small round
trip are zero, so buying 50 and selling back the 50 tokens received
returns exactly 50 — not strictly less although the fee rate is
nonzero. -/
theorem c7_counterexample :
    Reachable wC3 ∧
    (∃ c, mapGet wC3.curves 0 = some c ∧ c.feeBps = 100 ∧ c.feeBps ≠ 0) ∧
    buy wC3 (.user 2) 0 50 0 = .ok ((50, 0), wC4) ∧
    sell wC4 (.user 2) 0 50 0 = .ok ((50, 0), wC5) ∧
    ¬ ((50 : Nat) < 50) :=
  ⟨reachable_wC3, ⟨cC3, by decide, rfl, by decide⟩, rfl, rfl, by decide⟩

/-- C7 (amended): on a reachable state, buying and then immediately
selling the exact tokens received returns at most the amount paid minus
both charged fees, and strictly less than the amount paid whenever the
two floored fees are not both zero. -/
theorem c7_round_trip_bound :
    ∀ w sender cid amt minB minS out feeB stxOut feeS w₁ w₂,
      Reachable w →
      buy w sender cid amt minB = .ok ((out, feeB), w₁) →
      sell w₁ sender cid out minS = .ok ((stxOut, feeS), w₂) →
      stxOut + feeB + feeS ≤ amt ∧ (0 < feeB + feeS → stxOut < amt) := by
  intro w sender cid amt minB minS out feeB stxOut feeS w₁ w₂ hr hbuy hsell
  obtain ⟨c0, hget0, h1, h2, h3, h4, h5, h6, h7, h8, h9, hresB, hdichB⟩ :=
    buy_ok_elim hbuy
  injection hresB with hout hfeeB
  subst hout
  subst hfeeB
  obtain ⟨c1, sBal, hget1, hbal1, s1, s3, s4, s5, s6, s7, s8, s9, s10, s11,
    hresS, hw2⟩ := sell_ok_elim hsell
  injection hresS with hstx hfeeS
  subst hstx
  subst hfeeS
  rcases hdichB with ⟨h10, hw1⟩ | ⟨h10, hgi⟩
  · subst hw1
    rw [mapGet_buyCore_self] at hget1
    injection hget1 with hc1
    subst hc1
    have hc0 := (worldOk_curve (reachable_worldOk hr) hget0).2.1
    have hlo := hc0.2.2.2.2.2.2.1
    have h7' : 0 < c0.totalSupply - c0.tokensSold := h7
    have hq_ge : c0.virtualStx + c0.stxReserve ≤
        c0.k / (c0.totalSupply - c0.tokensSold) :=
      leDivOfMulLe h7' (by rw [Nat.mul_comm]; exact hlo)
    have hout' : tokensOutBuy c0 amt =
      (c0.totalSupply - c0.tokensSold) - newTokenReserveBuy c0 amt := rfl
    have h4' : newTokenReserveBuy c0 amt ≤
      c0.totalSupply - c0.tokensSold := h4
    have E1 : newTokenReserveSell (buyCurve c0 amt) (tokensOutBuy c0 amt) =
        c0.totalSupply - c0.tokensSold := by
      show c0.totalSupply - (c0.tokensSold + tokensOutBuy c0 amt) +
        tokensOutBuy c0 amt = c0.totalSupply - c0.tokensSold
      omega
    have E2 : newStxReserveSell (buyCurve c0 amt) (tokensOutBuy c0 amt) =
        c0.k / (c0.totalSupply - c0.tokensSold) - c0.virtualStx := by
      unfold newStxReserveSell
      rw [E1]
      rfl
    have E3 : grossStxSell (buyCurve c0 amt) (tokensOutBuy c0 amt) =
        newStxReserveBuy c0 amt -
        (c0.k / (c0.totalSupply - c0.tokensSold) - c0.virtualStx) := by
      unfold grossStxSell
      rw [E2]
      rfl
    have s4' : c0.k / (c0.totalSupply - c0.tokensSold) - c0.virtualStx ≤
        newStxReserveBuy c0 amt := by
      have hs := s4
      rw [E2] at hs
      exact hs
    have hnR : newStxReserveBuy c0 amt =
      c0.stxReserve + (amt - tradeFee c0 amt) := rfl
    have E5 : stxOutSell (buyCurve c0 amt) (tokensOutBuy c0 amt) =
        grossStxSell (buyCurve c0 amt) (tokensOutBuy c0 amt) -
        tradeFee (buyCurve c0 amt)
          (grossStxSell (buyCurve c0 amt) (tokensOutBuy c0 amt)) := rfl
    constructor
    · omega
    · intro hpos
      omega
  · obtain ⟨c2, hget2, -, -, -, -, hw1⟩ := graduateInternal_ok_elim hgi
    rw [mapGet_buyCore_self] at hget2
    injection hget2 with hc2
    subst hc2
    subst hw1
    rw [graduateCore_get (mapGet_buyCore_self w sender cid amt c0)] at hget1
    rw [if_pos rfl] at hget1
    injection hget1 with hc1
    rw [← hc1] at s6
    simp at s6

/-- Witness for C7 on the concrete fee-charging round trip
`wC3 → wC6 → wC7`. -/
theorem c7_round_trip_bound_witness :
    (9801 : Nat) + 100 + 99 ≤ 10000 ∧ (0 < 100 + 99 → (9801 : Nat) < 10000) :=
  c7_round_trip_bound wC3 (.user 2) 0 10000 0 0 4975 100 9801 99 wC6 wC7
    reachable_wC3 rfl rfl

end X402
